import Mathlib

/-!
Verification of the untangle micro-tree engine (`tinytree.h`), the section
planner (`dbtool.h`) and the member collector (`genmember.cc`) against the
natural-language specification.

The C++ sources are shallowly embedded:

* 32-bit unsigned references are `Nat`; the inverter bit `IBIT = 2^31` is
  manipulated with `^^^` (xor) and `&&&` (and), exactly as the source does
  with `^` and `&`; `x & ~IBIT` becomes `x &&& (IBIT - 1)` because
  `~IBIT = 0x7FFFFFFF` on `uint32_t`.
* the node array `N[]` is a `List tinyNode`; list position `i` holds node
  id `TINYTREE_NSTART + i`, and the `count` field of the source is the
  derived quantity `TINYTREE_NSTART + N.length` (the source only ever
  appends at `N[count]` and increments `count`).
* C `assert` aborts are modelled as `Option.none` results.
* stateful code is explicit state passing; fallible code returns `Option`.
-/

/-- Inverter bit of a reference (`IBIT`, bit 31 of a 32-bit reference). -/
def IBIT : Nat := 2 ^ 31

/-- Number of input variable slots (`MAXSLOTS`). -/
def MAXSLOTS : Nat := 9

/-- Number of transforms, `9!` (`MAXTRANSFORM`). -/
def MAXTRANSFORM : Nat := 362880

namespace tinyTree

/-- First variable/endpoint id (`TINYTREE_KSTART`). -/
def TINYTREE_KSTART : Nat := 1

/-- First operator node id (`TINYTREE_NSTART = KSTART + MAXSLOTS`). -/
def TINYTREE_NSTART : Nat := TINYTREE_KSTART + MAXSLOTS

/-- Maximum number of operator nodes (`TINYTREE_MAXNODES = MAXSLOTS * 2`). -/
def TINYTREE_MAXNODES : Nat := MAXSLOTS * 2

/-- One-past-the-last node id (`TINYTREE_NEND = NSTART + MAXNODES`). -/
def TINYTREE_NEND : Nat := TINYTREE_NSTART + TINYTREE_MAXNODES

/-- Maximum stack depth for a tree walk (`TINYTREE_MAXSTACK`). -/
def TINYTREE_MAXSTACK : Nat := (3 + 1) * TINYTREE_MAXNODES

/-- Maximum length of a tree name (`TINYTREE_NAMELEN`). -/
def TINYTREE_NAMELEN : Nat := 1 + (3 + 1) * TINYTREE_MAXNODES + 1 + 1

end tinyTree

open tinyTree

/-- Single unified operator node (`tinyNode_t`): references `Q`, `T`
(which may carry `IBIT`) and `F`. -/
structure tinyNode where
  Q : Nat
  T : Nat
  F : Nat
deriving DecidableEq, Repr

/-- High speed node tree (`tinyTree_t`).  `qntf` is the
`MAGICMASK_QNTF` bit of the `flags` field (the only flag that changes the
behaviour of the functions embedded here; `MAGICMASK_PARANOID` only guards
C `assert`s).  The `count` field of the source is represented by
`TINYTREE_NSTART + N.length` since nodes are only ever appended. -/
structure tinyTreeT where
  qntf : Bool
  N : List tinyNode
  root : Nat
deriving DecidableEq, Repr

namespace tinyTreeT

/-- Index of the first free node (the `count` field of `tinyTree_t`). -/
def count (t : tinyTreeT) : Nat := TINYTREE_NSTART + t.N.length

/-- Erased tree (`tinyTree_t::clear`): `count` rewound to `NSTART`,
`root` a zero-reference. -/
def clear (qntf : Bool) : tinyTreeT := { qntf := qntf, N := [], root := 0 }

/-- Linear scan of `basicNode`: first list position holding an identical
`(Q, T, F)` triple, if any. -/
def findN : List tinyNode → Nat → Nat → Nat → Option Nat
  | [], _, _, _ => none
  | n :: rest, q, u, f =>
    if n.Q = q ∧ n.T = u ∧ n.F = f then some 0
    else (findN rest q u f).map (· + 1)

/-- Append-if-absent node store (`tinyTree_t::basicNode`): linear scan of
the existing node range for an identical `(Q, T, F)`; if absent, append at
`count`.  (The `MAGICMASK_PARANOID` asserts of the source are compile-time
sanity checks and are not modelled.) -/
def basicNode (t : tinyTreeT) (Q T F : Nat) : tinyTreeT × Nat :=
  match findN t.N Q T F with
  | some i => (t, TINYTREE_NSTART + i)
  | none => ({ t with N := t.N ++ [⟨Q, T, F⟩] }, t.count)

/-- Level 1b (function grouping) and level 1c (dyadic ordering) of
`tinyTree_t::normaliseQTF`, reached with the inverter bits of `Q` and `F`
already pushed down and the pending result inversion accumulated in `ib`.
Returns `.inl r` for the branches of the source that `return` before
reaching `basicNode`, and `.inr (Q, T, F, ibit)` otherwise. -/
def norm1c (Q1 T2 F2 ib : Nat) : Sum Nat (Nat × Nat × Nat × Nat) :=
  if T2 &&& IBIT ≠ 0 then
    if T2 = IBIT then
      if F2 = Q1 ∨ F2 = 0 then
        -- SELF: "Q?~0:Q" [1] -> "Q?~0:0" [0] -> Q
        .inl (Q1 ^^^ ib)
      else
        -- OR: "Q?~0:F" [2], dyadic ordering
        if Q1 > F2 then .inr (F2, IBIT, Q1, ib) else .inr (Q1, IBIT, F2, ib)
    else if T2 &&& (IBIT - 1) = Q1 then
      if F2 = Q1 ∨ F2 = 0 then
        -- ZERO: "Q?~Q:Q" [4] -> "Q?~Q:0" [3] -> "0"
        .inl (0 ^^^ ib)
      else
        -- LESS-THAN: "Q?~Q:F" [5] -> "F?~Q:0"
        .inr (F2, T2, 0, ib)
    else
      if F2 = Q1 ∨ F2 = 0 then
        -- GREATER-THAN: "Q?~T:Q" [7] -> "Q?~T:0" [6]
        .inr (Q1, T2, 0, ib)
      else if T2 &&& (IBIT - 1) = F2 then
        -- XOR/NOT-EQUAL: "Q?~F:F" [8], dyadic ordering
        if Q1 > F2 then .inr (F2, Q1 ^^^ IBIT, Q1, ib) else .inr (Q1, T2, F2, ib)
      else
        -- QnTF: "Q?~T:F" [9]
        .inr (Q1, T2, F2, ib)
  else
    if T2 = 0 then
      if F2 = Q1 ∨ F2 = 0 then
        -- ZERO: "Q?0:Q" [11] -> "Q?0:0" [10] -> "0"
        .inl (0 ^^^ ib)
      else
        -- LESS-THAN: "Q?0:F" [12] -> "F?~Q:0" [6]
        .inr (F2, Q1 ^^^ IBIT, 0, ib)
    else if T2 = Q1 then
      if F2 = Q1 ∨ F2 = 0 then
        -- SELF: "Q?Q:Q" [14] -> "Q?Q:0" [13] -> "Q"
        .inl (Q1 ^^^ ib)
      else
        -- OR: "Q?Q:F" [15] -> "Q?~0:F" [2], dyadic ordering
        if Q1 > F2 then .inr (F2, IBIT, Q1, ib) else .inr (Q1, IBIT, F2, ib)
    else
      if F2 = Q1 ∨ F2 = 0 then
        -- AND: "Q?T:Q" [17] -> "Q?T:0" [16], dyadic ordering
        if Q1 > T2 then .inr (T2, Q1, 0, ib) else .inr (Q1, T2, 0, ib)
      else if T2 = F2 then
        -- SELF: "Q?F:F" [18] -> "F"
        .inl (F2 ^^^ ib)
      else
        -- QTF: "Q?T:F" [19]
        .inr (Q1, T2, F2, ib)

/-- Second half of level 1a of `tinyTree_t::normaliseQTF`: `"0?T:F" -> F`
and `"Q?T:~F" -> ~(Q?~T:F)` (inverter pushed out of `F` into `ibit`). -/
def norm1b (Q1 T1 F1 : Nat) : Sum Nat (Nat × Nat × Nat × Nat) :=
  if Q1 = 0 then .inl F1
  else if F1 &&& IBIT ≠ 0 then norm1c Q1 (T1 ^^^ IBIT) (F1 ^^^ IBIT) IBIT
  else norm1c Q1 T1 F1 0

/-- Pure part of `tinyTree_t::normaliseQTF` (everything before the
`MAGICMASK_QNTF` expansion and the `basicNode` store), starting with
level 1a's `"~Q?T:F" -> "Q?F:T"`. -/
def norm1 (Q0 T0 F0 : Nat) : Sum Nat (Nat × Nat × Nat × Nat) :=
  if Q0 &&& IBIT ≠ 0 then norm1b (Q0 ^^^ IBIT) F0 T0 else norm1b Q0 T0 F0

/-- Level-1 normalisation (`tinyTree_t::normaliseQTF`): the pure
rewriting `norm1` followed by the `MAGICMASK_QNTF` expansion
`Q?T:F -> Q?~(Q?~T:F):F` and the `basicNode` store.  The source function
recurses exactly once (only for the QnTF expansion, whose inner call has
`T` inverted and therefore never recurses again); `fuel` makes that
recursion structural. -/
def normaliseQTFgo (fuel : Nat) (t : tinyTreeT) (Q T F : Nat) : tinyTreeT × Nat :=
  match norm1 Q T F with
  | .inl r => (t, r)
  | .inr (Q1, T1, F1, ib) =>
    match fuel with
    | fuel' + 1 =>
      if t.qntf ∧ T1 &&& IBIT = 0 then
        -- Q?T:F -> Q?~(Q?~T:F):F
        let p := normaliseQTFgo fuel' t Q1 (T1 ^^^ IBIT) F1
        let q := basicNode p.1 Q1 (p.2 ^^^ IBIT) F1
        (q.1, q.2 ^^^ ib)
      else
        let q := basicNode t Q1 T1 F1
        (q.1, q.2 ^^^ ib)
    | 0 =>
      let q := basicNode t Q1 T1 F1
      (q.1, q.2 ^^^ ib)

/-- Entry point of `tinyTree_t::normaliseQTF` (the `addNode` of the
specification): recursion depth of the source is at most one. -/
def normaliseQTF (t : tinyTreeT) (Q T F : Nat) : tinyTreeT × Nat :=
  normaliseQTFgo 1 t Q T F

end tinyTreeT

namespace tinyTreeT

theorem findN_append_of_some {N : List tinyNode} {q u f i : Nat}
    (h : findN N q u f = some i) (ext : List tinyNode) :
    findN (N ++ ext) q u f = some i := by
  induction N generalizing i with
  | nil => simp [findN] at h
  | cons n rest ih =>
    by_cases hn : n.Q = q ∧ n.T = u ∧ n.F = f
    · simp [findN, hn] at h ⊢
      exact h
    · simp [findN, hn, Option.map_eq_some'] at h ⊢
      obtain ⟨j, hj, rfl⟩ := h
      exact ⟨j, ih hj, rfl⟩

theorem findN_append_of_none {N : List tinyNode} {q u f : Nat}
    (h : findN N q u f = none) :
    findN (N ++ [⟨q, u, f⟩]) q u f = some N.length := by
  induction N with
  | nil => simp [findN]
  | cons n rest ih =>
    by_cases hn : n.Q = q ∧ n.T = u ∧ n.F = f
    · simp [findN, hn] at h
    · simp [findN, hn, Option.map_eq_none'] at h
      simp [findN, hn, ih h]

theorem findN_lt {N : List tinyNode} {q u f i : Nat}
    (h : findN N q u f = some i) : i < N.length := by
  induction N generalizing i with
  | nil => simp [findN] at h
  | cons n rest ih =>
    simp only [findN] at h
    by_cases hn : n.Q = q ∧ n.T = u ∧ n.F = f
    · rw [if_pos hn] at h
      injection h with h2
      simp [← h2]
    · rw [if_neg hn] at h
      obtain ⟨j, hj, hji⟩ := Option.map_eq_some'.mp h
      have := ih hj
      simp [← hji]
      omega

/-- After `basicNode`, the stored triple is found at the returned id, and
this stays true in any tree that extends the result by appending. -/
theorem basicNode_findN (t : tinyTreeT) (q u f : Nat) :
    findN (basicNode t q u f).1.N q u f =
      some ((basicNode t q u f).2 - TINYTREE_NSTART) := by
  unfold basicNode
  cases h : findN t.N q u f with
  | some i =>
    have hge : TINYTREE_NSTART + i - TINYTREE_NSTART = i := by omega
    simp [h, hge]
  | none =>
    simp [h, findN_append_of_none h, count]

theorem basicNode_ext (t : tinyTreeT) (q u f : Nat) :
    ∃ ext, (basicNode t q u f).1.N = t.N ++ ext ∧
      (basicNode t q u f).1.qntf = t.qntf := by
  unfold basicNode
  cases h : findN t.N q u f with
  | some i => exact ⟨[], by simp [h]⟩
  | none => exact ⟨[⟨q, u, f⟩], by simp [h]⟩

theorem basicNode_ret_ge (t : tinyTreeT) (q u f : Nat) :
    TINYTREE_NSTART ≤ (basicNode t q u f).2 := by
  unfold basicNode
  cases h : findN t.N q u f with
  | some i => simp [h]
  | none => simp [h, count]

theorem basicNode_eq_of_found {t : tinyTreeT} {q u f i : Nat}
    (h : findN t.N q u f = some i) :
    basicNode t q u f = (t, TINYTREE_NSTART + i) := by
  unfold basicNode
  rw [h]

/-- Calling `basicNode` again with the same arguments on any appending
extension of its result returns the same id and leaves the tree alone. -/
theorem basicNode_again {t t2 : tinyTreeT} {q u f : Nat}
    (hN : ∃ ext, t2.N = (basicNode t q u f).1.N ++ ext) :
    basicNode t2 q u f = (t2, (basicNode t q u f).2) := by
  obtain ⟨ext, hext⟩ := hN
  have h1 := basicNode_findN t q u f
  have h2 : findN t2.N q u f = some ((basicNode t q u f).2 - TINYTREE_NSTART) := by
    rw [hext]; exact findN_append_of_some h1 ext
  have h3 := basicNode_ret_ge t q u f
  rw [basicNode_eq_of_found h2]
  congr 1
  omega

/-- C6 helper: `normaliseQTFgo` only appends nodes and keeps flags. -/
theorem normaliseQTFgo_ext (fuel : Nat) (t : tinyTreeT) (Q T F : Nat) :
    ∃ ext, (normaliseQTFgo fuel t Q T F).1.N = t.N ++ ext ∧
      (normaliseQTFgo fuel t Q T F).1.qntf = t.qntf := by
  induction fuel generalizing t Q T F with
  | zero =>
    unfold normaliseQTFgo
    cases h : norm1 Q T F with
    | inl r => exact ⟨[], by simp⟩
    | inr v =>
      obtain ⟨Q1, T1, F1, ib⟩ := v
      simpa using basicNode_ext t Q1 T1 F1
  | succ fuel' ih =>
    unfold normaliseQTFgo
    cases h : norm1 Q T F with
    | inl r => exact ⟨[], by simp⟩
    | inr v =>
      obtain ⟨Q1, T1, F1, ib⟩ := v
      by_cases hq : t.qntf = true ∧ T1 &&& IBIT = 0
      · obtain ⟨e1, he1, hf1⟩ := ih t Q1 (T1 ^^^ IBIT) F1
        obtain ⟨e2, he2, hf2⟩ :=
          basicNode_ext (normaliseQTFgo fuel' t Q1 (T1 ^^^ IBIT) F1).1 Q1
            ((normaliseQTFgo fuel' t Q1 (T1 ^^^ IBIT) F1).2 ^^^ IBIT) F1
        refine ⟨e1 ++ e2, ?_, ?_⟩
        · simp [hq, he2, he1]
        · simp [hq, hf2, hf1]
      · simpa [hq] using basicNode_ext t Q1 T1 F1

/-- C6 helper: re-running `normaliseQTFgo` with the same arguments on the
tree it produced (or any appending extension with the same flags) returns
the same reference and leaves the tree untouched. -/
theorem normaliseQTFgo_idem (fuel : Nat) (t t2 : tinyTreeT) (Q T F : Nat)
    (hN : ∃ ext, t2.N = (normaliseQTFgo fuel t Q T F).1.N ++ ext)
    (hq : t2.qntf = t.qntf) :
    normaliseQTFgo fuel t2 Q T F = (t2, (normaliseQTFgo fuel t Q T F).2) := by
  induction fuel generalizing t t2 Q T F with
  | zero =>
    unfold normaliseQTFgo
    cases h : norm1 Q T F with
    | inl r => simp
    | inr v =>
      obtain ⟨Q1, T1, F1, ib⟩ := v
      have := @basicNode_again t t2 Q1 T1 F1
        (by simpa [normaliseQTFgo, h] using hN)
      simp [this]
  | succ fuel' ih =>
    unfold normaliseQTFgo
    cases h : norm1 Q T F with
    | inl r => simp
    | inr v =>
      obtain ⟨Q1, T1, F1, ib⟩ := v
      by_cases hqn : t.qntf = true ∧ T1 &&& IBIT = 0
      · have hqn2 : t2.qntf = true ∧ T1 &&& IBIT = 0 := ⟨hq.trans hqn.1, hqn.2⟩
        have hN' : ∃ ext, t2.N =
            (basicNode (normaliseQTFgo fuel' t Q1 (T1 ^^^ IBIT) F1).1 Q1
              ((normaliseQTFgo fuel' t Q1 (T1 ^^^ IBIT) F1).2 ^^^ IBIT) F1).1.N ++ ext := by
          rw [normaliseQTFgo.eq_def] at hN
          simpa [h, hqn] using hN
        -- the inner call on t2 finds everything already present
        have hinner : normaliseQTFgo fuel' t2 Q1 (T1 ^^^ IBIT) F1 =
            (t2, (normaliseQTFgo fuel' t Q1 (T1 ^^^ IBIT) F1).2) := by
          apply ih
          · obtain ⟨e2, he2, _⟩ := basicNode_ext
              (normaliseQTFgo fuel' t Q1 (T1 ^^^ IBIT) F1).1 Q1
              ((normaliseQTFgo fuel' t Q1 (T1 ^^^ IBIT) F1).2 ^^^ IBIT) F1
            obtain ⟨e3, he3⟩ := hN'
            exact ⟨e2 ++ e3, by rw [he3, he2, List.append_assoc]⟩
          · obtain ⟨_, _, hf⟩ := normaliseQTFgo_ext fuel' t Q1 (T1 ^^^ IBIT) F1
            rw [hq, ← hf]
        have houter : basicNode t2 Q1
            ((normaliseQTFgo fuel' t Q1 (T1 ^^^ IBIT) F1).2 ^^^ IBIT) F1 =
            (t2, (basicNode (normaliseQTFgo fuel' t Q1 (T1 ^^^ IBIT) F1).1 Q1
              ((normaliseQTFgo fuel' t Q1 (T1 ^^^ IBIT) F1).2 ^^^ IBIT) F1).2) :=
          basicNode_again hN'
        simp [hqn, hqn2, hinner, houter]
      · have hqn2 : ¬(t2.qntf = true ∧ T1 &&& IBIT = 0) := by
          rw [hq]; exact hqn
        have := @basicNode_again t t2 Q1 T1 F1
          (by simpa [normaliseQTFgo, h, hqn] using hN)
        simp [hqn, hqn2, this]

end tinyTreeT

/-- C6: for every tree state and every argument triple `(Q, T, F)`,
invoking `addNode` (`tinyTree_t::normaliseQTF`) twice in succession with
the same arguments returns the same node reference both times, and the
tree's node count `count` does not grow on the second call. -/
theorem claim_C6_normalise_idempotent (t : tinyTreeT) (Q T F : Nat) :
    (tinyTreeT.normaliseQTF (tinyTreeT.normaliseQTF t Q T F).1 Q T F).2 =
      (tinyTreeT.normaliseQTF t Q T F).2 ∧
    (tinyTreeT.normaliseQTF (tinyTreeT.normaliseQTF t Q T F).1 Q T F).1.count =
      (tinyTreeT.normaliseQTF t Q T F).1.count := by
  have h := tinyTreeT.normaliseQTFgo_idem 1 t (tinyTreeT.normaliseQTF t Q T F).1 Q T F
    ⟨[], by simp [tinyTreeT.normaliseQTF]⟩
    ((tinyTreeT.normaliseQTFgo_ext 1 t Q T F).choose_spec.2)
  unfold tinyTreeT.normaliseQTF at h ⊢
  rw [h]
  exact ⟨rfl, rfl⟩

section bitKit

/-- Masking with `~IBIT` (that is `0x7FFFFFFF`) is reduction modulo `2^31`. -/
theorem and_mask_eq_mod (x : Nat) : x &&& (IBIT - 1) = x % IBIT := by
  apply Nat.eq_of_testBit_eq
  intro i
  show (x &&& (2 ^ 31 - 1)).testBit i = (x % 2 ^ 31).testBit i
  rw [Nat.testBit_and, Nat.testBit_two_pow_sub_one, Nat.testBit_mod_two_pow]
  cases x.testBit i <;> simp

/-- Bit 31 of a 32-bit value is set exactly when the value is `≥ 2^31`. -/
theorem and_ibit_ne_iff {x : Nat} (hx : x < 2 ^ 32) : x &&& IBIT ≠ 0 ↔ IBIT ≤ x := by
  have h1 : x &&& IBIT = (x.testBit 31).toNat * 2 ^ 31 := Nat.and_two_pow x 31
  have h2 : x.testBit 31 = decide (x / 2 ^ 31 % 2 = 1) := Nat.testBit_to_div_mod
  rw [h1, h2]
  show _ ↔ 2 ^ 31 ≤ x
  rcases Nat.lt_or_ge x (2 ^ 31) with h | h
  · have hd : x / 2 ^ 31 = 0 := Nat.div_eq_of_lt h
    simp [hd]
    omega
  · have hd : x / 2 ^ 31 = 1 := by omega
    simp [hd]
    omega

/-- Toggling bit 31 on a value below `2^31` adds `2^31`. -/
theorem xor_ibit_of_lt {x : Nat} (h : x < IBIT) : x ^^^ IBIT = x + IBIT := by
  apply Nat.eq_of_testBit_eq
  intro j
  show (x ^^^ 2 ^ 31).testBit j = (x + 2 ^ 31).testBit j
  have hsum : x + 2 ^ 31 = 2 ^ 31 * 1 + x := by omega
  rw [Nat.testBit_xor, hsum, Nat.testBit_mul_pow_two_add 1 h j, Nat.testBit_two_pow]
  by_cases hj : j < 31
  · rw [if_pos hj]
    have hne : ¬(31 = j) := by omega
    simp [hne]
  · rw [if_neg hj]
    have hxj : x.testBit j = false :=
      Nat.testBit_lt_two_pow (lt_of_lt_of_le h (Nat.pow_le_pow_right (by omega) (by omega)))
    have h1j : Nat.testBit 1 (j - 31) = decide (31 = j) := by
      rcases Nat.eq_zero_or_pos (j - 31) with h0 | h0
      · have : 31 = j := by omega
        simp [h0, this]
      · have hlt : (1 : Nat) < 2 ^ (j - 31) := by
          calc (1 : Nat) < 2 ^ 1 := by omega
          _ ≤ 2 ^ (j - 31) := Nat.pow_le_pow_right (by omega) (by omega)
        have hne : ¬(31 = j) := by omega
        simp [Nat.testBit_lt_two_pow hlt, hne]
    rw [hxj, h1j]
    simp

/-- Toggling bit 31 on a 32-bit value with bit 31 set subtracts `2^31`. -/
theorem xor_ibit_of_ge {x : Nat} (h1 : IBIT ≤ x) (h2 : x < 2 ^ 32) :
    x ^^^ IBIT = x - IBIT := by
  have hy : x - IBIT < IBIT := by
    show x - 2 ^ 31 < 2 ^ 31
    have : IBIT = 2 ^ 31 := rfl
    omega
  have := xor_ibit_of_lt hy
  have hx : x - IBIT + IBIT = x := by omega
  rw [hx] at this
  calc x ^^^ IBIT = (x - IBIT) ^^^ IBIT ^^^ IBIT := by rw [this]
  _ = x - IBIT := Nat.xor_cancel_right _ _

theorem xor_ibit_lt_32 {x : Nat} (h : x < 2 ^ 32) : x ^^^ IBIT < 2 ^ 32 := by
  rcases Nat.lt_or_ge x IBIT with hx | hx
  · rw [xor_ibit_of_lt hx]
    have : IBIT = 2 ^ 31 := rfl
    omega
  · rw [xor_ibit_of_ge hx h]
    omega

/-- The low 31 bits are untouched by toggling the inverter bit. -/
theorem mod_xor_ibit {x : Nat} (h : x < 2 ^ 32) : (x ^^^ IBIT) % IBIT = x % IBIT := by
  have hI : IBIT = 2 ^ 31 := rfl
  rcases Nat.lt_or_ge x IBIT with hx | hx
  · rw [xor_ibit_of_lt hx, hI]
    omega
  · rw [xor_ibit_of_ge hx h]
    rw [hI] at hx ⊢
    omega

end bitKit

namespace tinyTreeT

/-- Well-formedness of a `norm1` outcome with respect to a node count
`c`: early-return references and the triple handed to `basicNode` have
payloads below `c`; `Q` and `F` of the triple carry no inverter bit; the
accumulated `ibit` is `0` or `IBIT`. -/
def norm1spec (c : Nat) : Sum Nat (Nat × Nat × Nat × Nat) → Prop
  | .inl r => r % IBIT < c ∧ r < 2 ^ 32
  | .inr (Q1, T1, F1, ib1) =>
      (Q1 < c ∧ Q1 < IBIT) ∧ (T1 % IBIT < c ∧ T1 < 2 ^ 32) ∧
      (F1 < c ∧ F1 < IBIT) ∧ (ib1 = 0 ∨ ib1 = IBIT)

/-- Payload bounds through the branches of `norm1c`. -/
theorem norm1c_valid {c : Nat} (hc : 0 < c) {Q T F ib : Nat}
    (hQ : Q < c) (hQb : Q < IBIT) (hQ0 : Q ≠ 0)
    (hT : T % IBIT < c) (hT2 : T < 2 ^ 32)
    (hF : F < c) (hFb : F < IBIT)
    (hib : ib = 0 ∨ ib = IBIT) :
    norm1spec c (norm1c Q T F ib) := by
  have hI : IBIT = 2 ^ 31 := rfl
  have hQ32 : Q < 2 ^ 32 := lt_trans hQb (by decide)
  have hF32 : F < 2 ^ 32 := lt_trans hFb (by decide)
  have hmxQ : (Q ^^^ IBIT) % IBIT = Q % IBIT := mod_xor_ibit hQ32
  have hmxF : (F ^^^ IBIT) % IBIT = F % IBIT := mod_xor_ibit hF32
  have hxQ32 : Q ^^^ IBIT < 2 ^ 32 := xor_ibit_lt_32 hQ32
  have hxF32 : F ^^^ IBIT < 2 ^ 32 := xor_ibit_lt_32 hF32
  unfold norm1c norm1spec
  simp only [and_mask_eq_mod]
  rcases hib with rfl | rfl <;>
    [simp only [Nat.xor_zero]; simp only [Nat.zero_xor]] <;>
  rcases Nat.lt_or_ge T IBIT with hTb | hTb
  case inl.inl | inr.inl =>
    -- T has no inverter bit: the `else` half of the function grouping
    have hA : ¬(T &&& IBIT ≠ 0) := by rw [and_ibit_ne_iff hT2]; omega
    rw [if_neg hA]
    split_ifs <;>
      simp only [hI] at * <;>
      first
        | exact ⟨by omega, by omega⟩
        | exact ⟨⟨by omega, by omega⟩, ⟨by omega, by omega⟩, ⟨by omega, by omega⟩,
            by simp⟩
  case inl.inr | inr.inr =>
    -- T carries the inverter bit
    have hA : T &&& IBIT ≠ 0 := by rw [and_ibit_ne_iff hT2]; omega
    rw [if_pos hA]
    split_ifs <;>
      simp only [hI] at * <;>
      first
        | exact ⟨by omega, by omega⟩
        | exact ⟨⟨by omega, by omega⟩, ⟨by omega, by omega⟩, ⟨by omega, by omega⟩,
            by simp⟩

/-- Payload bounds through `norm1b`. -/
theorem norm1b_valid {c : Nat} (hc : 0 < c) {Q T F : Nat}
    (hQ : Q < c) (hQb : Q < IBIT)
    (hT : T % IBIT < c) (hT2 : T < 2 ^ 32)
    (hF : F % IBIT < c) (hF2 : F < 2 ^ 32) :
    norm1spec c (norm1b Q T F) := by
  have hI : IBIT = 2 ^ 31 := rfl
  unfold norm1b
  by_cases hQ0 : Q = 0
  · rw [if_pos hQ0]
    exact ⟨hF, hF2⟩
  · rw [if_neg hQ0]
    rcases Nat.lt_or_ge F IBIT with hFb | hFb
    · have hA : ¬(F &&& IBIT ≠ 0) := by rw [and_ibit_ne_iff hF2]; omega
      rw [if_neg hA]
      have hFm : F % IBIT = F := Nat.mod_eq_of_lt hFb
      exact norm1c_valid hc hQ hQb hQ0 hT hT2 (by omega) hFb (Or.inl rfl)
    · have hA : F &&& IBIT ≠ 0 := by rw [and_ibit_ne_iff hF2]; omega
      rw [if_pos hA]
      have hFx : F ^^^ IBIT = F - IBIT := xor_ibit_of_ge hFb hF2
      have hTx : (T ^^^ IBIT) % IBIT = T % IBIT := mod_xor_ibit hT2
      have hFbn : 2 ^ 31 ≤ F := by rw [hI] at hFb; exact hFb
      have hFm : F % IBIT = F - IBIT := by rw [hI]; omega
      have hFib : F - IBIT < IBIT := by rw [hI]; omega
      rw [hFx]
      exact norm1c_valid hc hQ hQb hQ0 (by omega)
        (xor_ibit_lt_32 hT2) (by omega) hFib (Or.inr rfl)

/-- Validity of every branch of `norm1`: starting from references whose
payload (low 31 bits) is below `c`, the early-return reference and the
triple handed to `basicNode` again have payloads below `c`; moreover `Q`
and `F` of the triple carry no inverter bit, and the accumulated `ibit`
is `0` or `IBIT`. -/
theorem norm1_valid {c : Nat} (hc : 0 < c) {Q T F : Nat}
    (hQ : Q % IBIT < c) (hQ2 : Q < 2 ^ 32)
    (hT : T % IBIT < c) (hT2 : T < 2 ^ 32)
    (hF : F % IBIT < c) (hF2 : F < 2 ^ 32) :
    norm1spec c (norm1 Q T F) := by
  have hI : IBIT = 2 ^ 31 := rfl
  unfold norm1
  rcases Nat.lt_or_ge Q IBIT with hQb | hQb
  · have hA : ¬(Q &&& IBIT ≠ 0) := by rw [and_ibit_ne_iff hQ2]; omega
    rw [if_neg hA]
    have hQm : Q % IBIT = Q := Nat.mod_eq_of_lt hQb
    exact norm1b_valid hc (by omega) hQb hT hT2 hF hF2
  · have hA : Q &&& IBIT ≠ 0 := by rw [and_ibit_ne_iff hQ2]; omega
    rw [if_pos hA]
    have hQx : Q ^^^ IBIT = Q - IBIT := xor_ibit_of_ge hQb hQ2
    have hQbn : 2 ^ 31 ≤ Q := by rw [hI] at hQb; exact hQb
    have hQm : Q % IBIT = Q - IBIT := by rw [hI]; omega
    have hlt : Q ^^^ IBIT < c := by rw [hQx]; omega
    have hib2 : Q ^^^ IBIT < IBIT := by rw [hQx, hI]; omega
    exact norm1b_valid hc hlt hib2 hF hF2 hT hT2

end tinyTreeT

namespace tinyTreeT

/-- Child-before-parent ordering of a single stored node (position `i` in
the node list holds node id `TINYTREE_NSTART + i`): each operand reference
is strictly below the node's own id. -/
def nodeOK (i : Nat) (n : tinyNode) : Prop :=
  n.Q < TINYTREE_NSTART + i ∧ n.T &&& (IBIT - 1) < TINYTREE_NSTART + i ∧
    n.F < TINYTREE_NSTART + i

instance (i : Nat) (n : tinyNode) : Decidable (nodeOK i n) :=
  inferInstanceAs (Decidable (_ ∧ _ ∧ _))

/-- The ordering invariant of the specification: every stored operator
node references only strictly smaller ids. -/
def invTree (t : tinyTreeT) : Prop :=
  ∀ i (h : i < t.N.length), nodeOK i (t.N[i])

instance (t : tinyTreeT) : Decidable (invTree t) := Nat.decidableBallLT _ _

theorem nstart_eq : TINYTREE_NSTART = 10 := rfl

theorem count_pos (t : tinyTreeT) : 0 < t.count := by
  unfold count
  rw [nstart_eq]
  omega

/-- `basicNode` preserves the ordering invariant and returns a reference
below the (possibly grown) node count. -/
theorem basicNode_spec (t : tinyTreeT) {q u f : Nat}
    (ht : invTree t) (hq : q < t.count) (hu : u % IBIT < t.count)
    (hf : f < t.count) :
    invTree (basicNode t q u f).1 ∧
    (basicNode t q u f).1.qntf = t.qntf ∧
    t.N.length ≤ (basicNode t q u f).1.N.length ∧
    (basicNode t q u f).1.N.length ≤ t.N.length + 1 ∧
    (basicNode t q u f).2 < (basicNode t q u f).1.count := by
  cases hfind : findN t.N q u f with
  | some i =>
    have hi : i < t.N.length := findN_lt hfind
    have heq : basicNode t q u f = (t, TINYTREE_NSTART + i) :=
      basicNode_eq_of_found hfind
    have heq1 : (basicNode t q u f).1 = t := by rw [heq]
    have heq2 : (basicNode t q u f).2 = TINYTREE_NSTART + i := by rw [heq]
    rw [heq1, heq2]
    refine ⟨ht, rfl, le_refl _, by omega, ?_⟩
    unfold count
    omega
  | none =>
    have heq : basicNode t q u f =
        ({ t with N := t.N ++ [⟨q, u, f⟩] }, t.count) := by
      unfold basicNode
      rw [hfind]
    have heq1 : (basicNode t q u f).1 = { t with N := t.N ++ [⟨q, u, f⟩] } := by
      rw [heq]
    have heq2 : (basicNode t q u f).2 = t.count := by rw [heq]
    rw [heq1, heq2]
    refine ⟨?_, rfl, by simp, by simp, ?_⟩
    · intro i h
      have hlen : i < t.N.length + 1 := by simpa using h
      rcases Nat.lt_or_ge i t.N.length with hi | hi
      · have : (t.N ++ [⟨q, u, f⟩])[i] = t.N[i] := by
          rw [List.getElem_append]
          simp [hi]
        rw [this]
        exact ht i hi
      · have hieq : i = t.N.length := by omega
        have : (t.N ++ [(⟨q, u, f⟩ : tinyNode)])[i] = ⟨q, u, f⟩ :=
          List.getElem_concat_length _ _ _ hieq _
        rw [this]
        refine ⟨?_, ?_, ?_⟩
        · show q < TINYTREE_NSTART + i
          unfold count at hq
          omega
        · show u &&& (IBIT - 1) < TINYTREE_NSTART + i
          rw [and_mask_eq_mod]
          unfold count at hu
          omega
        · show f < TINYTREE_NSTART + i
          unfold count at hf
          omega
    · unfold count
      simp

theorem go_inl {fuel : Nat} {t : tinyTreeT} {Q T F r : Nat}
    (hn : norm1 Q T F = .inl r) :
    normaliseQTFgo fuel t Q T F = (t, r) := by
  cases fuel <;> rw [normaliseQTFgo.eq_def, hn]

theorem go_zero_inr {t : tinyTreeT} {Q T F Q1 T1 F1 ib : Nat}
    (hn : norm1 Q T F = .inr (Q1, T1, F1, ib)) :
    normaliseQTFgo 0 t Q T F =
      ((basicNode t Q1 T1 F1).1, (basicNode t Q1 T1 F1).2 ^^^ ib) := by
  rw [normaliseQTFgo.eq_def, hn]

theorem go_succ_plain {fuel : Nat} {t : tinyTreeT} {Q T F Q1 T1 F1 ib : Nat}
    (hn : norm1 Q T F = .inr (Q1, T1, F1, ib))
    (hq : ¬(t.qntf = true ∧ T1 &&& IBIT = 0)) :
    normaliseQTFgo (fuel + 1) t Q T F =
      ((basicNode t Q1 T1 F1).1, (basicNode t Q1 T1 F1).2 ^^^ ib) := by
  rw [normaliseQTFgo.eq_def, hn]
  simp [hq]

theorem go_succ_qntf {fuel : Nat} {t : tinyTreeT} {Q T F Q1 T1 F1 ib : Nat}
    (hn : norm1 Q T F = .inr (Q1, T1, F1, ib))
    (hq : t.qntf = true ∧ T1 &&& IBIT = 0) :
    normaliseQTFgo (fuel + 1) t Q T F =
      ((basicNode (normaliseQTFgo fuel t Q1 (T1 ^^^ IBIT) F1).1 Q1
          ((normaliseQTFgo fuel t Q1 (T1 ^^^ IBIT) F1).2 ^^^ IBIT) F1).1,
       (basicNode (normaliseQTFgo fuel t Q1 (T1 ^^^ IBIT) F1).1 Q1
          ((normaliseQTFgo fuel t Q1 (T1 ^^^ IBIT) F1).2 ^^^ IBIT) F1).2 ^^^ ib) := by
  rw [normaliseQTFgo.eq_def, hn]
  simp [hq]

/-- Full validity bundle for `normaliseQTFgo`: the ordering invariant is
preserved, nodes are only appended (boundedly), flags are kept and the
returned reference is in range. -/
theorem normaliseQTFgo_spec (fuel : Nat) (t : tinyTreeT) (Q T F : Nat)
    (ht : invTree t) (hlen : t.N.length + fuel < 2 ^ 30)
    (hQ : Q % IBIT < t.count) (hQ2 : Q < 2 ^ 32)
    (hT : T % IBIT < t.count) (hT2 : T < 2 ^ 32)
    (hF : F % IBIT < t.count) (hF2 : F < 2 ^ 32) :
    invTree (normaliseQTFgo fuel t Q T F).1 ∧
    (normaliseQTFgo fuel t Q T F).1.qntf = t.qntf ∧
    t.N.length ≤ (normaliseQTFgo fuel t Q T F).1.N.length ∧
    (normaliseQTFgo fuel t Q T F).1.N.length ≤ t.N.length + fuel + 1 ∧
    (normaliseQTFgo fuel t Q T F).2 % IBIT < (normaliseQTFgo fuel t Q T F).1.count ∧
    (normaliseQTFgo fuel t Q T F).2 < 2 ^ 32 := by
  have hI : IBIT = 2 ^ 31 := rfl
  induction fuel generalizing t Q T F with
  | zero =>
    have hnv := norm1_valid (count_pos t) hQ hQ2 hT hT2 hF hF2
    cases hn : norm1 Q T F with
    | inl r =>
      rw [hn] at hnv
      simp only [norm1spec] at hnv
      rw [go_inl hn]
      dsimp only
      exact ⟨ht, rfl, le_refl _, by omega, hnv.1, hnv.2⟩
    | inr v =>
      obtain ⟨Q1, T1, F1, ib⟩ := v
      rw [hn] at hnv
      obtain ⟨⟨h1, h2⟩, ⟨h3, h4⟩, ⟨h5, h6⟩, h7⟩ := hnv
      obtain ⟨b1, b2, b3, b4, b5⟩ := basicNode_spec t ht h1 h3 h5
      rw [go_zero_inr hn]
      dsimp only
      have hc32 : (basicNode t Q1 T1 F1).2 < 2 ^ 31 := by
        have := b5
        unfold count at this
        rw [nstart_eq] at this
        omega
      refine ⟨b1, b2, b3, by omega, ?_, ?_⟩
      · show ((basicNode t Q1 T1 F1).2 ^^^ ib) % IBIT < (basicNode t Q1 T1 F1).1.count
        rcases h7 with rfl | rfl
        · rw [Nat.xor_zero, hI, Nat.mod_eq_of_lt hc32]
          exact b5
        · rw [mod_xor_ibit (by omega), hI, Nat.mod_eq_of_lt hc32]
          exact b5
      · show (basicNode t Q1 T1 F1).2 ^^^ ib < 2 ^ 32
        rcases h7 with rfl | rfl
        · rw [Nat.xor_zero]
          omega
        · exact xor_ibit_lt_32 (by omega)
  | succ fuel' ih =>
    have hnv := norm1_valid (count_pos t) hQ hQ2 hT hT2 hF hF2
    cases hn : norm1 Q T F with
    | inl r =>
      rw [hn] at hnv
      simp only [norm1spec] at hnv
      rw [go_inl hn]
      dsimp only
      exact ⟨ht, rfl, le_refl _, by omega, hnv.1, hnv.2⟩
    | inr v =>
      obtain ⟨Q1, T1, F1, ib⟩ := v
      rw [hn] at hnv
      obtain ⟨⟨h1, h2⟩, ⟨h3, h4⟩, ⟨h5, h6⟩, h7⟩ := hnv
      by_cases hqn : t.qntf = true ∧ T1 &&& IBIT = 0
      · -- QnTF expansion: inner recursive call, then store
        obtain ⟨i1, i2, i3, i4, i5, i6⟩ := ih t Q1 (T1 ^^^ IBIT) F1 ht (by omega)
          (by rw [Nat.mod_eq_of_lt h2]; exact h1) (lt_trans h2 (by decide))
          (by rw [mod_xor_ibit h4]; exact h3) (xor_ibit_lt_32 h4)
          (by rw [Nat.mod_eq_of_lt h6]; exact h5) (lt_trans h6 (by decide))
        have hmono : t.count ≤ (normaliseQTFgo fuel' t Q1 (T1 ^^^ IBIT) F1).1.count := by
          unfold count
          omega
        obtain ⟨b1, b2, b3, b4, b5⟩ :=
          basicNode_spec (normaliseQTFgo fuel' t Q1 (T1 ^^^ IBIT) F1).1 i1
            (lt_of_lt_of_le h1 hmono)
            (by rw [mod_xor_ibit i6]; exact i5)
            (lt_of_lt_of_le h5 hmono)
        rw [go_succ_qntf hn hqn]
        dsimp only
        have hc32 : (basicNode (normaliseQTFgo fuel' t Q1 (T1 ^^^ IBIT) F1).1 Q1
            ((normaliseQTFgo fuel' t Q1 (T1 ^^^ IBIT) F1).2 ^^^ IBIT) F1).2 < 2 ^ 31 := by
          have := b5
          unfold count at this
          rw [nstart_eq] at this
          omega
        refine ⟨b1, by rw [b2, i2], by omega, by omega, ?_, ?_⟩
        · show ((basicNode (normaliseQTFgo fuel' t Q1 (T1 ^^^ IBIT) F1).1 Q1
              ((normaliseQTFgo fuel' t Q1 (T1 ^^^ IBIT) F1).2 ^^^ IBIT) F1).2 ^^^ ib) % IBIT <
            (basicNode (normaliseQTFgo fuel' t Q1 (T1 ^^^ IBIT) F1).1 Q1
              ((normaliseQTFgo fuel' t Q1 (T1 ^^^ IBIT) F1).2 ^^^ IBIT) F1).1.count
          have hmod : (basicNode (normaliseQTFgo fuel' t Q1 (T1 ^^^ IBIT) F1).1 Q1
              ((normaliseQTFgo fuel' t Q1 (T1 ^^^ IBIT) F1).2 ^^^ IBIT) F1).2 % IBIT =
              (basicNode (normaliseQTFgo fuel' t Q1 (T1 ^^^ IBIT) F1).1 Q1
              ((normaliseQTFgo fuel' t Q1 (T1 ^^^ IBIT) F1).2 ^^^ IBIT) F1).2 := by
            rw [hI]
            exact Nat.mod_eq_of_lt hc32
          rcases h7 with rfl | rfl
          · rw [Nat.xor_zero, hmod]
            exact b5
          · rw [mod_xor_ibit (by omega), hmod]
            exact b5
        · show (basicNode (normaliseQTFgo fuel' t Q1 (T1 ^^^ IBIT) F1).1 Q1
              ((normaliseQTFgo fuel' t Q1 (T1 ^^^ IBIT) F1).2 ^^^ IBIT) F1).2 ^^^ ib < 2 ^ 32
          rcases h7 with rfl | rfl
          · rw [Nat.xor_zero]
            omega
          · exact xor_ibit_lt_32 (by omega)
      · -- plain store
        obtain ⟨b1, b2, b3, b4, b5⟩ := basicNode_spec t ht h1 h3 h5
        rw [go_succ_plain hn hqn]
        dsimp only
        have hc32 : (basicNode t Q1 T1 F1).2 < 2 ^ 31 := by
          have := b5
          unfold count at this
          rw [nstart_eq] at this
          omega
        refine ⟨b1, b2, b3, by omega, ?_, ?_⟩
        · show ((basicNode t Q1 T1 F1).2 ^^^ ib) % IBIT < (basicNode t Q1 T1 F1).1.count
          rcases h7 with rfl | rfl
          · rw [Nat.xor_zero, hI, Nat.mod_eq_of_lt hc32]
            exact b5
          · rw [mod_xor_ibit (by omega), hI, Nat.mod_eq_of_lt hc32]
            exact b5
        · show (basicNode t Q1 T1 F1).2 ^^^ ib < 2 ^ 32
          rcases h7 with rfl | rfl
          · rw [Nat.xor_zero]
            omega
          · exact xor_ibit_lt_32 (by omega)

end tinyTreeT

/-- C7: invariant preserved by the tree-building operation `addNode`
(`tinyTree_t::normaliseQTF`): if every stored operator node references
only strictly smaller ids and the arguments are in-range references, then
after the call every stored node `n` with operands `(Q, T, F)` still
satisfies `Q < id(n)`, `(T & ~IBIT) < id(n)` and `F < id(n)`. -/
theorem claim_C7_ordering_invariant (t : tinyTreeT) (Q T F : Nat)
    (ht : tinyTreeT.invTree t) (hlen : t.N.length ≤ TINYTREE_MAXNODES)
    (hQ : Q &&& (IBIT - 1) < t.count) (hQ2 : Q < 2 ^ 32)
    (hT : T &&& (IBIT - 1) < t.count) (hT2 : T < 2 ^ 32)
    (hF : F &&& (IBIT - 1) < t.count) (hF2 : F < 2 ^ 32) :
    tinyTreeT.invTree (tinyTreeT.normaliseQTF t Q T F).1 := by
  rw [and_mask_eq_mod] at hQ hT hF
  have hmax : TINYTREE_MAXNODES = 18 := rfl
  exact (tinyTreeT.normaliseQTFgo_spec 1 t Q T F ht (by omega)
    hQ hQ2 hT hT2 hF hF2).1

/-- Witness for C7 at a concrete input: the empty tree, adding the node
`a ? ~b : 0`. -/
theorem claim_C7_witness :
    tinyTreeT.invTree (tinyTreeT.clear false) ∧
    tinyTreeT.invTree
      (tinyTreeT.normaliseQTF (tinyTreeT.clear false) 1 (2 ^^^ IBIT) 0).1 :=
  ⟨by decide,
   claim_C7_ordering_invariant (tinyTreeT.clear false) 1 (2 ^^^ IBIT) 0
     (by decide) (by decide) (by decide) (by decide) (by decide) (by decide)
     (by decide) (by decide)⟩


section normaliseChecks

open tinyTreeT

/-- Sanity check: `"ab>"` creates one node at `NSTART`. -/
theorem normaliseQTF_check_gt :
    (normaliseQTF (clear false) 1 (2 ^^^ IBIT) 0).2 = TINYTREE_NSTART := by decide

/-- Sanity check: a plain QTF node is stored as given. -/
theorem normaliseQTF_check_qtf :
    (normaliseQTF (clear false) 1 2 3).1.N = [⟨1, 2, 3⟩] := by decide

/-- Sanity check: `"0?T:F"` collapses to `F`. -/
theorem normaliseQTF_check_zeroQ :
    (normaliseQTF (clear false) 0 5 7) = (clear false, 7) := by decide

/-- Sanity check of OR dyadic ordering: `"ba+"` stores `Q=a, T=~0, F=b`. -/
theorem normaliseQTF_check_or :
    (normaliseQTF (clear false) 2 IBIT 1).1.N = [⟨1, IBIT, 2⟩] := by decide

/-- Sanity check: pure (QnTF-only) mode expands a QTF into two nodes. -/
theorem normaliseQTF_check_pure :
    (normaliseQTF (clear true) 1 2 3).1.N =
    [⟨1, 2 ^^^ IBIT, 3⟩, ⟨1, TINYTREE_NSTART ^^^ IBIT, 3⟩] := by decide

end normaliseChecks

/-! ## Parsing, encoding and evaluation (`tinytree.h`)

The notation parsers and the encoder of `tinyTree_t`.  Character
classification follows C's `isalnum`/`islower` in the C locale.  The C
stack arrays (`stack`, `beenThere`, `beenWhat`) are fixed-size arrays
indexed through a cursor, modelled as lists of the same size accessed
with `List.set`/`List.getD`; memory the source leaves uninitialised is
modelled as zero.  C `assert` failures abort the program and are
modelled as `Option.none`. -/

/-- C `isalnum` in the C locale (ASCII letters and digits). -/
def cIsAlnum (c : Char) : Bool :=
  (48 ≤ c.toNat && c.toNat ≤ 57) || (97 ≤ c.toNat && c.toNat ≤ 122) ||
    (65 ≤ c.toNat && c.toNat ≤ 90)

/-- C `islower` in the C locale (ASCII lowercase letters). -/
def cIsLower (c : Char) : Bool := 97 ≤ c.toNat && c.toNat ≤ 122

namespace tinyTreeT

/-- Decode error codes of `tinyTree_t` (in declaration order). -/
def DERR_OK : Nat := 0

/-- Unknown character in name. -/
def DERR_SYNTAX : Nat := 1

/-- Placeholder not a lowercase endpoint. -/
def DERR_PLACEHOLDER : Nat := 2

/-- Stack overflow, might imply too big. -/
def DERR_OVERFLOW : Nat := 3

/-- Stack underflow, notation not balanced. -/
def DERR_UNDERFLOW : Nat := 4

/-- Stuff still on stack, missing opcodes. -/
def DERR_INCOMPLETE : Nat := 5

/-- Notation too large for tree. -/
def DERR_SIZE : Nat := 6

/-- Parser state of `tinyTree_t::decodeSafe`: the tree under
construction (`count` is `TINYTREE_NSTART + N.length`), the operand
stack with its cursor, the `beenThere` back-reference array and the
`nextNode` visual-node counter. -/
structure dsState where
  qntf : Bool
  N : List tinyNode
  stack : List Nat
  stackPos : Nat
  beenThere : List Nat
  nextNode : Nat
deriving DecidableEq, Repr

/-- The `count` field of the tree being built by `decodeSafe`. -/
def dsState.count (st : dsState) : Nat := TINYTREE_NSTART + st.N.length

/-- Push a value at the stack cursor (`stack[stackPos++] = v`). -/
def dsState.push (st : dsState) (v : Nat) : dsState :=
  { st with stack := st.stack.set st.stackPos v, stackPos := st.stackPos + 1 }

/-- Apply `normaliseQTF` to the tree under construction and push the
result, recording it in `beenThere[nextNode++]` for back-references. -/
def dsState.applyOp (st : dsState) (Q T F : Nat) : dsState :=
  let p := normaliseQTF ⟨st.qntf, st.N, 0⟩ Q T F
  let st := { st with N := p.1.N }
  let st := st.push p.2
  { st with beenThere := st.beenThere.set st.nextNode p.2,
            nextNode := st.nextNode + 1 }

/-- One character of the `decodeSafe` loop.  Returns an error code, or
the new state together with a flag requesting the scan to stop (the
`'/'` placeholder/skin separator skips the remainder of the string). -/
def decodeSafeStep (pSkin : List Char) (st : dsState) (ch : Char) :
    Sum Nat (dsState × Bool) :=
  if cIsAlnum ch ∧ st.stackPos ≥ TINYTREE_MAXSTACK then .inl DERR_OVERFLOW
  else if ¬cIsAlnum ch ∧ st.count ≥ TINYTREE_NEND - 1 then .inl DERR_SIZE
  else if cIsLower ch ∧
      ¬cIsLower (pSkin.getD (ch.toNat - 97) (Char.ofNat 0)) then
    .inl DERR_PLACEHOLDER
  else if ch = '0' then .inr (st.push 0, false)
  else if 97 ≤ ch.toNat ∧ ch.toNat ≤ 105 then
    -- 'a' .. 'i': an endpoint remapped through the skin
    .inr (st.push (TINYTREE_KSTART +
      ((pSkin.getD (ch.toNat - 97) (Char.ofNat 0)).toNat - 97)), false)
  else if 49 ≤ ch.toNat ∧ ch.toNat ≤ 57 then
    -- '1' .. '9': a back-reference into `beenThere`
    .inr (st.push (st.beenThere.getD (st.nextNode - (ch.toNat - 48)) 0), false)
  else if ch = '>' then
    -- GT (appreciated)
    if st.stackPos < 2 then .inl DERR_UNDERFLOW
    else
      let R := st.stack.getD (st.stackPos - 1) 0
      let L := st.stack.getD (st.stackPos - 2) 0
      .inr ((({ st with stackPos := st.stackPos - 2 }).applyOp L (R ^^^ IBIT) 0),
        false)
  else if ch = '+' then
    -- OR (appreciated)
    if st.stackPos < 2 then .inl DERR_UNDERFLOW
    else
      let R := st.stack.getD (st.stackPos - 1) 0
      let L := st.stack.getD (st.stackPos - 2) 0
      .inr ((({ st with stackPos := st.stackPos - 2 }).applyOp L (0 ^^^ IBIT) R),
        false)
  else if ch = '^' then
    -- XOR/NE (appreciated)
    if st.stackPos < 2 then .inl DERR_UNDERFLOW
    else
      let R := st.stack.getD (st.stackPos - 1) 0
      let L := st.stack.getD (st.stackPos - 2) 0
      .inr ((({ st with stackPos := st.stackPos - 2 }).applyOp L (R ^^^ IBIT) R),
        false)
  else if ch = '!' then
    -- QnTF (appreciated)
    if st.stackPos < 3 then .inl DERR_UNDERFLOW
    else
      let F := st.stack.getD (st.stackPos - 1) 0
      let T := st.stack.getD (st.stackPos - 2) 0
      let Q := st.stack.getD (st.stackPos - 3) 0
      .inr ((({ st with stackPos := st.stackPos - 3 }).applyOp Q (T ^^^ IBIT) F),
        false)
  else if ch = '&' then
    -- AND (depreciated)
    if st.stackPos < 2 then .inl DERR_UNDERFLOW
    else
      let R := st.stack.getD (st.stackPos - 1) 0
      let L := st.stack.getD (st.stackPos - 2) 0
      .inr ((({ st with stackPos := st.stackPos - 2 }).applyOp L R 0), false)
  else if ch = '<' then
    -- LT (obsolete).  NOTE: the source writes `beenThere[stackPos++]`
    -- here (instead of `beenThere[nextNode++]`), bumping the stack
    -- cursor past a stale slot and leaving `nextNode` untouched.
    if st.stackPos < 2 then .inl DERR_UNDERFLOW
    else
      let R := st.stack.getD (st.stackPos - 1) 0
      let L := st.stack.getD (st.stackPos - 2) 0
      let p := normaliseQTF ⟨st.qntf, st.N, 0⟩ L 0 R
      let st := { st with N := p.1.N, stackPos := st.stackPos - 2 }
      let st := st.push p.2
      .inr ({ st with beenThere := st.beenThere.set st.stackPos p.2,
                      stackPos := st.stackPos + 1 }, false)
  else if ch = '?' then
    -- QTF (depreciated)
    if st.stackPos < 3 then .inl DERR_UNDERFLOW
    else
      let F := st.stack.getD (st.stackPos - 1) 0
      let T := st.stack.getD (st.stackPos - 2) 0
      let Q := st.stack.getD (st.stackPos - 3) 0
      .inr ((({ st with stackPos := st.stackPos - 3 }).applyOp Q T F), false)
  else if ch = '~' then
    -- NOT (support): invert top-of-stack
    if st.stackPos < 1 then .inl DERR_UNDERFLOW
    else
      let v := (st.stack.getD (st.stackPos - 1) 0) ^^^ IBIT
      .inr ({ st with stack := st.stack.set (st.stackPos - 1) v }, false)
  else if ch = '/' then
    -- separator between placeholder and skin: skip the remainder
    .inr (st, true)
  else if ch = ' ' then
    -- skip spaces
    .inr (st, false)
  else .inl DERR_SYNTAX

/-- The character loop of `decodeSafe`: first error code (if any) and
the state at which the walk stopped. -/
def decodeSafeGo (pSkin : List Char) : List Char → dsState → Option Nat × dsState
  | [], st => (none, st)
  | ch :: rest, st =>
    match decodeSafeStep pSkin st ch with
    | .inl e => (some e, st)
    | .inr (st', stop) =>
      if stop then (none, st') else decodeSafeGo pSkin rest st'

/-- Initial state of the `decodeSafe`/`decodeFast` walk. -/
def dsInit (qntf : Bool) : dsState :=
  ⟨qntf, [], List.replicate TINYTREE_MAXSTACK 0, 0,
    List.replicate TINYTREE_NEND 0, TINYTREE_NSTART⟩

/-- `tinyTree_t::decodeSafe`: parse notation, normalising while
constructing.  Returns the error code (`DERR_OK` on success) and the
tree; the root is only assigned on success and remains the
zero-reference of `clear` otherwise. -/
def decodeSafe (qntf : Bool) (pName : List Char)
    (pSkin : List Char := [ 'a', 'b', 'c', 'd', 'e', 'f', 'g', 'h', 'i' ]) :
    Nat × tinyTreeT :=
  let r := decodeSafeGo pSkin pName (dsInit qntf)
  match r.1 with
  | some e => (e, ⟨qntf, r.2.N, 0⟩)
  | none =>
    if r.2.stackPos ≠ 1 then (DERR_INCOMPLETE, ⟨qntf, r.2.N, 0⟩)
    else (DERR_OK, ⟨qntf, r.2.N, r.2.stack.getD (r.2.stackPos - 1) 0⟩)

/-- One character of the `decodeFast` loop: builds literally, without
any check; characters outside the notation alphabet are silently
ignored (the `switch` has no `default`).  The Bool requests stop
(`'/'` stores the root and returns). -/
def decodeFastStep (pSkin : List Char) (st : dsState) (ch : Char) :
    dsState × Bool :=
  if ch = '0' then (st.push 0, false)
  else if 97 ≤ ch.toNat ∧ ch.toNat ≤ 105 then
    (st.push (TINYTREE_KSTART +
      ((pSkin.getD (ch.toNat - 97) (Char.ofNat 0)).toNat - 97)), false)
  else if 49 ≤ ch.toNat ∧ ch.toNat ≤ 57 then
    -- '1' .. '9': a back-reference relative to `count`
    (st.push (st.count - (ch.toNat - 48)), false)
  else if ch = '>' then
    let R := st.stack.getD (st.stackPos - 1) 0
    let L := st.stack.getD (st.stackPos - 2) 0
    let nid := st.count
    (({ st with N := st.N ++ [(⟨L, R ^^^ IBIT, 0⟩ : tinyNode)], stackPos := st.stackPos - 2 }).push nid, false)
  else if ch = '+' then
    let R := st.stack.getD (st.stackPos - 1) 0
    let L := st.stack.getD (st.stackPos - 2) 0
    let nid := st.count
    (({ st with N := st.N ++ [(⟨L, 0 ^^^ IBIT, R⟩ : tinyNode)], stackPos := st.stackPos - 2 }).push nid, false)
  else if ch = '^' then
    let R := st.stack.getD (st.stackPos - 1) 0
    let L := st.stack.getD (st.stackPos - 2) 0
    let nid := st.count
    (({ st with N := st.N ++ [(⟨L, R ^^^ IBIT, R⟩ : tinyNode)], stackPos := st.stackPos - 2 }).push nid, false)
  else if ch = '!' then
    let F := st.stack.getD (st.stackPos - 1) 0
    let T := st.stack.getD (st.stackPos - 2) 0
    let Q := st.stack.getD (st.stackPos - 3) 0
    let nid := st.count
    (({ st with N := st.N ++ [(⟨Q, T ^^^ IBIT, F⟩ : tinyNode)], stackPos := st.stackPos - 3 }).push nid, false)
  else if ch = '&' then
    let R := st.stack.getD (st.stackPos - 1) 0
    let L := st.stack.getD (st.stackPos - 2) 0
    let nid := st.count
    (({ st with N := st.N ++ [(⟨L, R, 0⟩ : tinyNode)], stackPos := st.stackPos - 2 }).push nid, false)
  else if ch = '<' then
    let R := st.stack.getD (st.stackPos - 1) 0
    let L := st.stack.getD (st.stackPos - 2) 0
    let nid := st.count
    (({ st with N := st.N ++ [(⟨L, 0, R⟩ : tinyNode)], stackPos := st.stackPos - 2 }).push nid, false)
  else if ch = '?' then
    let F := st.stack.getD (st.stackPos - 1) 0
    let T := st.stack.getD (st.stackPos - 2) 0
    let Q := st.stack.getD (st.stackPos - 3) 0
    let nid := st.count
    (({ st with N := st.N ++ [(⟨Q, T, F⟩ : tinyNode)], stackPos := st.stackPos - 3 }).push nid, false)
  else if ch = '~' then
    let v := (st.stack.getD (st.stackPos - 1) 0) ^^^ IBIT
    ({ st with stack := st.stack.set (st.stackPos - 1) v }, false)
  else if ch = '/' then (st, true)
  else (st, false)

/-- The character loop of `decodeFast`. -/
def decodeFastGo (pSkin : List Char) : List Char → dsState → dsState
  | [], st => st
  | ch :: rest, st =>
    match decodeFastStep pSkin st ch with
    | (st', stop) => if stop then st' else decodeFastGo pSkin rest st'

/-- `tinyTree_t::decodeFast`: parse notation literally, assuming it is
normalised; no checking whatsoever. -/
def decodeFast (qntf : Bool) (pName : List Char)
    (pSkin : List Char := [ 'a', 'b', 'c', 'd', 'e', 'f', 'g', 'h', 'i' ]) :
    tinyTreeT :=
  let st := decodeFastGo pSkin pName (dsInit qntf)
  ⟨qntf, st.N, st.stack.getD (st.stackPos - 1) 0⟩

end tinyTreeT

namespace tinyTreeT

/-- Push a node reference for the skin walk of `encode` only when it
refers to an operator node (`if (X >= TINYTREE_NSTART) stack[stackPos++] = X`). -/
def pushIf (s : List Nat) (x : Nat) : List Nat :=
  if TINYTREE_NSTART ≤ x then x :: s else s

/-- Walk state of `tinyTree_t::encode`: the name and skin accumulated
so far, the DFS stack (head is top of stack), the `beenThere` visit
bitmask, the `beenWhat` per-node annotation array and the `nextNode`
visual-node counter. -/
structure encState where
  pName : List Char
  skin : List Char
  stack : List Nat
  beenThere : Nat
  beenWhat : List Nat
  nextNode : Nat
deriving DecidableEq, Repr

/-- The skin enumeration walk of `encode` (executed when a skin is
requested).  Fuel-indexed: `none` is fuel exhaustion (the C loop runs
until the stack empties), `some none` is a C `assert` failure
(`assert(!"Q?F:F")`), `some (some st)` is normal loop exit. -/
def encodeSkinGo (t : tinyTreeT) : Nat → encState → Option (Option encState)
  | 0, _ => none
  | fuel + 1, st =>
    match st.stack with
    | [] => some (some st)
    | curr :: rest =>
      let node := t.N.getD (curr - TINYTREE_NSTART) ⟨0, 0, 0⟩
      let Q := node.Q
      let To := node.T &&& (IBIT - 1)
      let Ti := node.T &&& IBIT
      let F := node.F
      if ¬(st.beenThere.testBit curr) then
        -- first time: push back for a second visit, then the operands
        let base := curr :: rest
        let stack' :=
          if Ti ≠ 0 then
            if F = 0 then pushIf (pushIf base To) Q
            else if To = 0 then pushIf (pushIf base F) Q
            else if F = To then pushIf (pushIf base F) Q
            else pushIf (pushIf (pushIf base F) To) Q
          else
            if F = 0 then pushIf (pushIf base To) Q
            else if To = 0 then pushIf (pushIf base F) Q
            else pushIf (pushIf (pushIf base F) To) Q
        if Ti = 0 ∧ F = To ∧ F ≠ 0 ∧ To ≠ 0 then some none  -- assert Q?F:F
        else
          encodeSkinGo t fuel { st with
            stack := stack',
            beenThere := st.beenThere ||| 2 ^ curr,
            beenWhat := st.beenWhat.set curr 0 }
      else if st.beenWhat.getD curr 0 = 0 then
        -- node complete: assign placeholders to fresh endpoints
        let assign := fun (st : encState) (x : Nat) =>
          if x < TINYTREE_NSTART ∧ ¬(st.beenThere.testBit x) then
            { st with
              beenThere := st.beenThere ||| 2 ^ x,
              beenWhat := st.beenWhat.set x (97 + st.skin.length),
              skin := st.skin ++ [Char.ofNat (97 + x - TINYTREE_KSTART)] }
          else st
        let st := { st with stack := rest }
        let st := assign st Q
        let st := assign st To
        let st := assign st F
        encodeSkinGo t fuel { st with
          beenWhat := st.beenWhat.set curr st.nextNode,
          nextNode := st.nextNode + 1 }
      else
        encodeSkinGo t fuel { st with stack := rest }

/-- The emit walk of `encode`.  Fuel-indexed like `encodeSkinGo`;
`some none` is a C `assert` failure (`assert(!"Q?F:F")` or
`assert(backref <= 9)`). -/
def encodeEmitGo (t : tinyTreeT) (withSkin : Bool) :
    Nat → encState → Option (Option encState)
  | 0, _ => none
  | fuel + 1, st =>
    match st.stack with
    | [] => some (some st)
    | curr :: rest =>
      if curr < TINYTREE_NSTART then
        let c :=
          if curr = 0 then '0'
          else if ¬withSkin then Char.ofNat (97 + curr - TINYTREE_KSTART)
          else Char.ofNat (st.beenWhat.getD curr 0)
        encodeEmitGo t withSkin fuel
          { st with pName := st.pName ++ [c], stack := rest }
      else
        let node := t.N.getD (curr - TINYTREE_NSTART) ⟨0, 0, 0⟩
        let Q := node.Q
        let To := node.T &&& (IBIT - 1)
        let Ti := node.T &&& IBIT
        let F := node.F
        if ¬(st.beenThere.testBit curr) then
          let base := curr :: rest
          let stack' :=
            if Ti ≠ 0 then
              if F = 0 then Q :: To :: base
              else if To = 0 then Q :: F :: base
              else if F = To then Q :: F :: base
              else Q :: To :: F :: base
            else
              if F = 0 then Q :: To :: base
              else if To = 0 then Q :: F :: base
              else Q :: To :: F :: base
          if Ti = 0 ∧ F = To ∧ F ≠ 0 ∧ To ≠ 0 then some none  -- assert Q?F:F
          else
            encodeEmitGo t withSkin fuel { st with
              stack := stack',
              beenThere := st.beenThere ||| 2 ^ curr,
              beenWhat := st.beenWhat.set curr 0 }
        else if st.beenWhat.getD curr 0 = 0 then
          let c :=
            if Ti ≠ 0 then
              if F = 0 then '>'
              else if To = 0 then '+'
              else if F = To then '^'
              else '!'
            else
              if F = 0 then '&'
              else if To = 0 then '<'
              else '?'
          if Ti = 0 ∧ F = To ∧ F ≠ 0 ∧ To ≠ 0 then some none  -- assert Q?F:F
          else
            encodeEmitGo t withSkin fuel { st with
              pName := st.pName ++ [c],
              stack := rest,
              beenWhat := st.beenWhat.set curr st.nextNode,
              nextNode := st.nextNode + 1 }
        else
          let backref := st.nextNode - st.beenWhat.getD curr 0
          if backref > 9 then some none  -- assert(backref <= 9)
          else
            encodeEmitGo t withSkin fuel { st with
              pName := st.pName ++ [Char.ofNat (48 + backref)],
              stack := rest }

/-- `tinyTree_t::encode`: emit the postfix name (and optionally the
skin) of the sub-tree rooted at `id`.  `none` means the walk ran out
of fuel (does not happen for well-formed trees); `some none` means a C
`assert` fired (`assert(!"Q?F:F")`, `assert(backref <= 9)`,
`assert(skinLen <= MAXSLOTS)` or `assert(nameLen <= TINYTREE_NAMELEN)`);
`some (some (name, skin))` is the encoded result (the skin is `[]`
when not requested). -/
def encode (t : tinyTreeT) (id : Nat) (withSkin : Bool) :
    Option (Option (List Char × List Char)) :=
  let idu := id &&& (IBIT - 1)
  if idu < TINYTREE_NSTART then
    let (name0, skin0) :=
      if withSkin then
        if idu = 0 then ([ '0' ], ([] : List Char))
        else ([ 'a' ], [Char.ofNat (97 + idu - TINYTREE_KSTART)])
      else
        if idu = 0 then ([ '0' ], [])
        else ([Char.ofNat (97 + idu - TINYTREE_KSTART)], [])
    let name1 := if id &&& IBIT ≠ 0 then name0 ++ [ '~' ] else name0
    some (some (name1, skin0))
  else
    let st0 : encState :=
      ⟨[], [], [idu], 2 ^ 0, List.replicate TINYTREE_NEND 0, TINYTREE_NSTART⟩
    let afterSkin : Option (Option encState) :=
      if withSkin then
        match encodeSkinGo t 1000 st0 with
        | none => none
        | some none => some none
        | some (some st) =>
          if st.skin.length > MAXSLOTS then some none  -- assert(skinLen <= MAXSLOTS)
          else some (some st)
      else some (some st0)
    match afterSkin with
    | none => none
    | some none => some none
    | some (some stS) =>
      -- the emit walk restarts with a fresh stack and visit mask but
      -- keeps `beenWhat` (endpoint placeholders live there)
      let st1 : encState :=
        ⟨[], stS.skin, [idu], 2 ^ 0, stS.beenWhat, TINYTREE_NSTART⟩
      match encodeEmitGo t withSkin 1000 st1 with
      | none => none
      | some none => some none
      | some (some st) =>
        let name1 := if id &&& IBIT ≠ 0 then st.pName ++ [ '~' ] else st.pName
        if name1.length > TINYTREE_NAMELEN then some none  -- assert(nameLen <= NAMELEN)
        else some (some (name1, st.skin))

end tinyTreeT

namespace tinyTreeT

/-- The default skin `"abcdefghi"`. -/
def defaultSkin : List Char := [ 'a', 'b', 'c', 'd', 'e', 'f', 'g', 'h', 'i' ]

end tinyTreeT

open tinyTree tinyTreeT in
/-- C10: for every input string whose characters are all individually
accepted by `decodeSafe` (the character walk reports no error) but
which leaves the operand stack with more or fewer than one entry at
the end of the string, `decodeSafe` returns `DERR_INCOMPLETE` — a
non-zero error code distinct from the syntax, placeholder, overflow,
underflow and oversize codes — and the tree's root remains the zero
reference. -/
theorem claim_C10_incomplete_error (qntf : Bool) (pName pSkin : List Char)
    (h1 : (decodeSafeGo pSkin pName (dsInit qntf)).1 = none)
    (h2 : (decodeSafeGo pSkin pName (dsInit qntf)).2.stackPos ≠ 1) :
    (decodeSafe qntf pName pSkin).1 = DERR_INCOMPLETE ∧
    (decodeSafe qntf pName pSkin).2.root = 0 ∧
    DERR_INCOMPLETE ≠ DERR_OK ∧
    DERR_INCOMPLETE ≠ DERR_SYNTAX ∧
    DERR_INCOMPLETE ≠ DERR_PLACEHOLDER ∧
    DERR_INCOMPLETE ≠ DERR_OVERFLOW ∧
    DERR_INCOMPLETE ≠ DERR_UNDERFLOW ∧
    DERR_INCOMPLETE ≠ DERR_SIZE := by
  have hds : decodeSafe qntf pName pSkin =
      (DERR_INCOMPLETE, ⟨qntf, (decodeSafeGo pSkin pName (dsInit qntf)).2.N, 0⟩) := by
    unfold decodeSafe
    dsimp only
    rw [h1]
    simp [h2]
  rw [hds]
  refine ⟨rfl, rfl, by decide, by decide, by decide, by decide, by decide, by decide⟩

open tinyTree tinyTreeT in
/-- Witness for C10 at the concrete input `"ab"` (two operands, no
operator): the walk accepts both characters, leaves two entries on the
stack, and `decodeSafe` reports `DERR_INCOMPLETE` with a zero root. -/
theorem claim_C10_witness :
    (decodeSafeGo defaultSkin [ 'a', 'b' ] (dsInit false)).1 = none ∧
    (decodeSafeGo defaultSkin [ 'a', 'b' ] (dsInit false)).2.stackPos ≠ 1 ∧
    (decodeSafe false [ 'a', 'b' ] defaultSkin).1 = DERR_INCOMPLETE ∧
    (decodeSafe false [ 'a', 'b' ] defaultSkin).2.root = 0 :=
  ⟨by decide, by decide,
   (claim_C10_incomplete_error false [ 'a', 'b' ] defaultSkin
     (by decide) (by decide)).1,
   (claim_C10_incomplete_error false [ 'a', 'b' ] defaultSkin
     (by decide) (by decide)).2.1⟩

namespace tinyTreeT

/-- The notation string `"ab&c^d^e^f^g^c^d^e^f^ab&d?"`: accepted by
`decodeSafe`, yet its tree spreads re-used nodes more than nine
visual nodes apart, so `encode` needs a back-reference of 10. -/
def s9 : List Char :=
  [ 'a', 'b', '&', 'c', '^', 'd', '^', 'e', '^', 'f', '^', 'g', '^',
    'c', '^', 'd', '^', 'e', '^', 'f', '^', 'a', 'b', '&', 'd', '?' ]

end tinyTreeT

open tinyTree tinyTreeT in
/-- C4: the parse/encode round-trip claimed by the spec does not even
complete for every accepted notation: `decodeSafe` accepts `s9`
(returns `DERR_OK`), yet `encode` on the resulting tree aborts with
`assert(backref <= 9)` (modelled as `some none`), both with and
without a skin, so no name is produced for `decodeFast` to re-parse. -/
theorem claim_C4_roundtrip_encode_assert :
    (decodeSafe false s9 defaultSkin).1 = DERR_OK ∧
    encode (decodeSafe false s9 defaultSkin).2
      (decodeSafe false s9 defaultSkin).2.root true = some none ∧
    encode (decodeSafe false s9 defaultSkin).2
      (decodeSafe false s9 defaultSkin).2.root false = some none :=
  ⟨by decide, by decide, by decide⟩

/-! ## Member comparator (`genmember.cc`)

`comparMember` is the `qsort_r` comparator used by `finaliseMembers`
to sort `members[1..]`.  The flag masks of `member_t` live in
`database.h`; the comparator only tests them for being set, so their
exact bit positions are immaterial.  `tinyTree_t::calcScoreName` and
`tinyTree_t::compare` are likewise declared elsewhere; the comparator
is parameterised over them (the claim settled here is decided before
either is consulted).  The leading C pointer-identity shortcut
(`lhs == rhs`) applies to physically identical array entries only and
is not represented. -/

/-- Modelled from the spec: member flag `SAFE` (bit positions are not
in the provided sources; only set-ness matters to the comparator). -/
def MEMMASK_SAFE : Nat := 2 ^ 0

/-- Modelled from the spec: member flag `COMPONENT`. -/
def MEMMASK_COMP : Nat := 2 ^ 1

/-- Modelled from the spec: member flag `LOCKED`. -/
def MEMMASK_LOCKED : Nat := 2 ^ 2

/-- Modelled from the spec: member flag `DEPR`. -/
def MEMMASK_DEPR : Nat := 2 ^ 3

/-- Modelled from the spec: member flag `DELETE`. -/
def MEMMASK_DELETE : Nat := 2 ^ 4

/-- The fields of `member_t` read by `comparMember`: the signature id,
the flag word and the notation name. -/
structure memberT where
  sid : Nat
  flags : Nat
  name : List Char
deriving DecidableEq, Repr

/-- `genmemberContext_t::comparMember` (without the physical-identity
shortcut), parameterised over `tinyTree_t::calcScoreName` and the
canonical tree comparison of the two parsed names. -/
def comparMember (calcScoreName : List Char → Nat)
    (treeCompare : List Char → List Char → Int)
    (pMemberL pMemberR : memberT) : Int :=
  -- test for empties (they should gather towards the end of members[])
  if pMemberL.sid = 0 ∧ pMemberR.sid = 0 then 0
  else if pMemberL.sid = 0 then 1
  else if pMemberR.sid = 0 then -1
  -- safes go first
  else if pMemberL.flags &&& MEMMASK_SAFE ≠ 0 ∧ pMemberR.flags &&& MEMMASK_SAFE = 0 then -1
  else if pMemberL.flags &&& MEMMASK_SAFE = 0 ∧ pMemberR.flags &&& MEMMASK_SAFE ≠ 0 then 1
  -- depreciates go last
  else if pMemberL.flags &&& MEMMASK_DEPR ≠ 0 ∧ pMemberR.flags &&& MEMMASK_DEPR = 0 then 1
  else if pMemberL.flags &&& MEMMASK_DEPR = 0 ∧ pMemberR.flags &&& MEMMASK_DEPR ≠ 0 then -1
  -- components go first.  NOTE: the source returns -1 in BOTH halves
  -- of this stage (genmember.cc lines 1117-1120).
  else if pMemberL.flags &&& MEMMASK_COMP ≠ 0 ∧ pMemberR.flags &&& MEMMASK_COMP = 0 then -1
  else if pMemberL.flags &&& MEMMASK_COMP = 0 ∧ pMemberR.flags &&& MEMMASK_COMP ≠ 0 then -1
  else
    -- compare scores (C computes `(int)(scoreL - scoreR)` in `unsigned`)
    let scoreL := calcScoreName pMemberL.name
    let scoreR := calcScoreName pMemberR.name
    let cmpU : Nat := (scoreL % 2 ^ 32 + 2 ^ 32 - scoreR % 2 ^ 32) % 2 ^ 32
    if cmpU ≠ 0 then
      if cmpU < 2 ^ 31 then (cmpU : Int) else (cmpU : Int) - 2 ^ 32
    else
      treeCompare pMemberL.name pMemberR.name

open tinyTree tinyTreeT in
/-- C2: the comparator is NOT consistent with the order claimed by the
spec: for two otherwise identical safe, non-deprecated members where
only the right one carries the COMPONENT flag, `comparMember` answers
-1 both ways around (whatever the score and tree-comparison
functions), so components are not sorted before non-components and the
comparator is not antisymmetric. -/
theorem claim_C2_comparMember_component_both_negative
    (calcScoreName : List Char → Nat)
    (treeCompare : List Char → List Char → Int) :
    comparMember calcScoreName treeCompare
      ⟨1, MEMMASK_SAFE, [ 'a', 'b', '&' ]⟩
      ⟨1, MEMMASK_SAFE ||| MEMMASK_COMP, [ 'a', 'b', '^' ]⟩ = -1 ∧
    comparMember calcScoreName treeCompare
      ⟨1, MEMMASK_SAFE ||| MEMMASK_COMP, [ 'a', 'b', '^' ]⟩
      ⟨1, MEMMASK_SAFE, [ 'a', 'b', '&' ]⟩ = -1 := by
  constructor <;> rfl

/-! ## Interleave metrics (`metrics.h`)

The interleave table itself lives in `metrics.h`, which is not among
the provided sources; the rows are reconstructed from the spec: the
allowed interleave values are 120, 504, 720, 5040, 15120, 40320 and
60480 stored imprints per signature, each paired with the step
`9! / numStored` so that `numStored * interleaveStep = 9! = 362880`. -/

/-- Modelled from the spec: the `(numStored, interleaveStep)` rows of
the interleave metrics table, one per allowed interleave value. -/
def metricsInterleave : List (Nat × Nat) :=
  [(120, 3024), (504, 720), (720, 504), (5040, 72), (15120, 24),
   (40320, 9), (60480, 6)]

/-- The covering set the spec claims for an interleave row, literally:
`{ k*step mod 9! : 0 <= k < numStored }` together with
`{ 0, ..., step-1 }` (written from the spec's words, to be compared
with the arithmetic of the rows). -/
def specCovered (numStored step t : Nat) : Bool :=
  (List.range numStored).any (fun k => t = k * step % 362880) || decide (t < step)

/-- Euclidean decomposition: everything below `n * s` splits as
`k * s + u` with `k < n`, `u < s`. -/
theorem cover_of_mul (n s t : Nat) (hs : 0 < s) (h : t < n * s) :
    ∃ k, k < n ∧ ∃ u, u < s ∧ t = k * s + u := by
  refine ⟨t / s, ?_, t % s, Nat.mod_lt _ hs, ?_⟩
  · exact (Nat.div_lt_iff_lt_mul hs).2 h
  · exact (Nat.div_add_mod' t s).symm

set_option maxRecDepth 4000 in
/-- C8 counterexample to the literal covering claim: for the allowed
interleave row `(504, 720)` the transform id 721 lies in `[0, 9!)` but
belongs neither to `{ k*720 mod 9! : k < 504 }` (all multiples of 720)
nor to `{ 0, ..., 719 }`. -/
theorem claim_C8_counterexample :
    (504, 720) ∈ metricsInterleave ∧ 721 < 362880 ∧
    specCovered 504 720 721 = false := by
  refine ⟨by decide, by decide, by decide⟩

/-- C8 (amended): every allowed interleave row `(numStored, step)`
satisfies `numStored * step = 9! = 362880`, and the transform range is
covered in the composed sense the lookup actually uses: every
`t ∈ [0, 9!)` decomposes as `t = k*step + u` with `k < numStored` and
`u < step` (a stored transform composed with a probed one) — not as a
set union of the stored and probed ids alone. -/
theorem claim_C8_interleave_divisor_cover (p : Nat × Nat)
    (hp : p ∈ metricsInterleave) :
    p.1 * p.2 = 362880 ∧
    ∀ t, t < 362880 → ∃ k, k < p.1 ∧ ∃ u, u < p.2 ∧ t = k * p.2 + u := by
  have hcases : p = (120, 3024) ∨ p = (504, 720) ∨ p = (720, 504) ∨
      p = (5040, 72) ∨ p = (15120, 24) ∨ p = (40320, 9) ∨ p = (60480, 6) := by
    simpa [metricsInterleave] using hp
  rcases hcases with rfl | rfl | rfl | rfl | rfl | rfl | rfl <;>
    exact ⟨by norm_num, fun t ht => cover_of_mul _ _ _ (by norm_num) (by omega)⟩

/-- Witness for C8 at the row `(504, 720)` and transform id 721 (the
very id the literal covering set misses): `721 = 1*720 + 1`. -/
theorem claim_C8_witness :
    (504, 720) ∈ metricsInterleave ∧ 721 < 362880 ∧
    (504 : Nat) * 720 = 362880 ∧
    (∃ k, k < 504 ∧ ∃ u, u < 720 ∧ 721 = k * 720 + u) :=
  ⟨by decide, by decide,
   (claim_C8_interleave_divisor_cover (504, 720) (by decide)).1,
   (claim_C8_interleave_divisor_cover (504, 720) (by decide)).2 721 (by decide)⟩

/-! ## Database section planner (`dbtool.h`, `src/unnamed/part_000`)

`dbtool_t::sizeDatabaseSections` plans the output database's section
sizes from command-line overrides, the input database and metric
presets.  `context_t::fatal` aborts the program and is modelled as
`Option.none`.  The helpers it calls live in headers not among the
provided sources and are taken as parameters: `raisePercent`
(`ctx.raisePercent(x, 5)`), the generator metrics row for this run
(`getMetricsGenerator(MAXSLOTS, pure, numNodes)`, `none` when there is
no preset), the imprint metrics row as a function of the interleave
(`getMetricsImprint`), and the index auto-size
(`ctx.nextPrime(max * opt_ratio)`).  `ALLOCMASK_*` bit masks become
one `Bool` per section.  `getMetricsInterleave` is the lookup into
`metricsInterleave` by stored-imprint count. -/

/-- Modelled from the spec: the default interleave used on first
creation ("user override wins; else inherit; else default"). -/
def METRICS_DEFAULT_INTERLEAVE : Nat := 504

/-- The section-presence bitmasks (`ALLOCMASK_*`), one Bool each. -/
structure sectionSet where
  signature : Bool
  signatureIndex : Bool
  hint : Bool
  hintIndex : Bool
  imprint : Bool
  imprintIndex : Bool
  member : Bool
  memberIndex : Bool
deriving DecidableEq, Repr

/-- `a &= ~b`, bit by bit. -/
def sectionSet.andNot (a b : sectionSet) : sectionSet :=
  ⟨a.signature && !b.signature, a.signatureIndex && !b.signatureIndex,
   a.hint && !b.hint, a.hintIndex && !b.hintIndex,
   a.imprint && !b.imprint, a.imprintIndex && !b.imprintIndex,
   a.member && !b.member, a.memberIndex && !b.memberIndex⟩

/-- The input database fields the planner reads. -/
structure dbSections where
  numSignature : Nat
  signatureIndexSize : Nat
  numHint : Nat
  hintIndexSize : Nat
  interleave : Nat
  numImprint : Nat
  imprintIndexSize : Nat
  numMember : Nat
  memberIndexSize : Nat
deriving DecidableEq, Repr

/-- The output database fields the planner assigns. -/
structure storeSections where
  maxSignature : Nat
  signatureIndexSize : Nat
  maxHint : Nat
  hintIndexSize : Nat
  interleave : Nat
  interleaveStep : Nat
  maxImprint : Nat
  imprintIndexSize : Nat
  maxMember : Nat
  memberIndexSize : Nat
deriving DecidableEq, Repr

/-- The `dbtool_t` switches the planner reads (`0` = not given). -/
structure dbtoolOptions where
  opt_maxSignature : Nat
  opt_signatureIndexSize : Nat
  opt_maxHint : Nat
  opt_hintIndexSize : Nat
  opt_interleave : Nat
  opt_maxImprint : Nat
  opt_imprintIndexSize : Nat
  opt_maxMember : Nat
  opt_memberIndexSize : Nat
  readOnlyMode : Bool
  copyOnWrite : Bool
deriving DecidableEq, Repr

/-- A generator metrics row (`metricsGenerator_t`): the preset counts
consulted for signatures, hints and members. -/
structure metricsGenerator where
  numSignature : Nat
  numHint : Nat
  numMember : Nat
deriving DecidableEq, Repr

/-- The oracles for code outside the provided sources: `raisePercent`
is `ctx.raisePercent(., 5)`, `gen` the generator metrics row for this
run (if any), `imprintNum` the imprint preset count for a given
interleave (if any), `autoSize` is `ctx.nextPrime(. * opt_ratio)`. -/
structure plannerOracles where
  raisePercent : Nat → Nat
  gen : Option metricsGenerator
  imprintNum : Nat → Option Nat
  autoSize : Nat → Nat

/-- The planner's result: the sized output sections plus the final
inherit and rebuild masks. -/
structure planResult where
  store : storeSections
  inheritSections : sectionSet
  rebuildSections : sectionSet
deriving DecidableEq, Repr

/-- `dbtool_t::sizeDatabaseSections` up to (excluding) the final
"output data must be large enough to fit input data" fatal checks.
`none` models a `ctx.fatal` from a missing metrics preset. -/
def sizeDatabaseSectionsCore (o : plannerOracles) (opt : dbtoolOptions)
    (db : dbSections) (inherit0 rebuild0 : sectionSet) : Option planResult :=
  let inh := inherit0.andNot rebuild0
  let reb := rebuild0
  -- signature data
  let maxSignature? : Option Nat :=
    if opt.opt_maxSignature ≠ 0 then some opt.opt_maxSignature
    else if inh.signature then some db.numSignature
    else if ¬opt.readOnlyMode then
      match o.gen with
      | none => none  -- ctx.fatal("no preset for --maxsignature")
      | some m => some (o.raisePercent m.numSignature)
    else if db.numSignature ≠ 0 then some db.numSignature
    else some 1
  match maxSignature? with
  | none => none
  | some maxSignature =>
  let inh := if maxSignature > db.numSignature then { inh with signature := false }
    else if opt.copyOnWrite then { inh with signature := true } else inh
  -- signature index
  let signatureIndexSize :=
    if maxSignature = 0 then 0
    else if opt.opt_signatureIndexSize ≠ 0 then opt.opt_signatureIndexSize
    else if inh.signatureIndex then db.signatureIndexSize
    else if ¬opt.readOnlyMode then o.autoSize maxSignature
    else if db.signatureIndexSize ≠ 0 then db.signatureIndexSize
    else 1
  let (inh, reb) :=
    if maxSignature = 0 then (inh, reb)
    else if signatureIndexSize ≠ db.signatureIndexSize then
      let reb := { reb with signatureIndex := true }
      (inh.andNot reb, reb)
    else if opt.copyOnWrite then ({ inh with signatureIndex := true }, reb)
    else (inh, reb)
  -- hint data
  let maxHint? : Option Nat :=
    if opt.opt_maxHint ≠ 0 then some opt.opt_maxHint
    else if inh.hint then some db.numHint
    else if ¬opt.readOnlyMode then
      match o.gen with
      | none => none  -- ctx.fatal("no preset for --maxhint")
      | some m => some (o.raisePercent m.numHint)
    else if db.numHint ≠ 0 then some db.numHint
    else some 1
  match maxHint? with
  | none => none
  | some maxHint =>
  let inh := if maxHint > db.numHint then { inh with hint := false }
    else if opt.copyOnWrite then { inh with hint := true } else inh
  -- hint index
  let hintIndexSize :=
    if maxHint = 0 then 0
    else if opt.opt_hintIndexSize ≠ 0 then opt.opt_hintIndexSize
    else if inh.hintIndex then db.hintIndexSize
    else if ¬opt.readOnlyMode then o.autoSize maxHint
    else if db.hintIndexSize ≠ 0 then db.hintIndexSize
    else 1
  let (inh, reb) :=
    if maxHint = 0 then (inh, reb)
    else if hintIndexSize ≠ db.hintIndexSize then
      let reb := { reb with hintIndex := true }
      (inh.andNot reb, reb)
    else if opt.copyOnWrite then ({ inh with hintIndex := true }, reb)
    else (inh, reb)
  -- interleave is not a section but a setting
  let interleave0 :=
    if opt.opt_interleave ≠ 0 then opt.opt_interleave
    else if db.interleave ≠ 0 then db.interleave
    else METRICS_DEFAULT_INTERLEAVE
  let row? : Option (Nat × Nat) :=
    if interleave0 ≠ 0 then
      match metricsInterleave.find? (fun p => p.1 = interleave0) with
      | none => none  -- ctx.fatal("no preset for --interleave")
      | some p => some p
    else some (interleave0, 0)
  match row? with
  | none => none
  | some row =>
  let interleave1 := if interleave0 ≠ 0 then row.1 else interleave0
  let interleaveStep1 := if interleave0 ≠ 0 then row.2 else 0
  let (inh, reb) :=
    if interleave1 ≠ db.interleave then
      let reb := { reb with imprint := true }
      (inh.andNot reb, reb)
    else (inh, reb)
  -- imprint data
  let imprintPlan? : Option (Nat × Nat × Nat) :=  -- (interleave, step, maxImprint)
    if maxSignature = 0 then some (0, interleaveStep1, 0)
    else if opt.opt_maxImprint ≠ 0 then some (interleave1, interleaveStep1, opt.opt_maxImprint)
    else if inh.imprint then some (interleave1, interleaveStep1, db.numImprint)
    else if ¬opt.readOnlyMode then
      match o.imprintNum interleave1 with
      | none => none  -- ctx.fatal("no preset for --maximprint")
      | some n => some (interleave1, interleaveStep1, o.raisePercent n)
    else if db.numImprint ≠ 0 then some (interleave1, interleaveStep1, db.numImprint)
    else some (1, MAXTRANSFORM, 1)
  match imprintPlan? with
  | none => none
  | some plan =>
  let interleave := plan.1
  let interleaveStep := plan.2.1
  let maxImprint := plan.2.2
  let (inh, reb) :=
    if maxSignature = 0 then (inh, reb)
    else
      -- imprint as data
      let inh := if maxImprint > db.numImprint then { inh with imprint := false }
        else if opt.copyOnWrite then { inh with imprint := true } else inh
      -- imprint as index
      if db.numImprint = 0 ∨ interleave ≠ db.interleave then
        let reb := { reb with imprint := true }
        (inh.andNot reb, reb)
      else if opt.copyOnWrite then ({ inh with imprint := true }, reb)
      else (inh, reb)
  -- imprint index
  let imprintIndexSize :=
    if maxImprint = 0 then 0
    else if opt.opt_imprintIndexSize ≠ 0 then opt.opt_imprintIndexSize
    else if inh.imprintIndex then db.imprintIndexSize
    else if ¬opt.readOnlyMode then o.autoSize maxImprint
    else if db.imprintIndexSize ≠ 0 then db.imprintIndexSize
    else 1
  let (inh, reb) :=
    if maxImprint = 0 then (inh, reb)
    else if imprintIndexSize ≠ db.imprintIndexSize then
      let reb := { reb with imprintIndex := true }
      (inh.andNot reb, reb)
    else if opt.copyOnWrite then ({ inh with imprintIndex := true }, reb)
    else (inh, reb)
  -- member data
  let maxMember? : Option Nat :=
    if opt.opt_maxMember ≠ 0 then some opt.opt_maxMember
    else if inh.member then some db.numMember
    else if ¬opt.readOnlyMode then
      match o.gen with
      | none => none  -- ctx.fatal("no preset for --maxmember")
      | some m => some (o.raisePercent m.numMember)
    else if db.numMember ≠ 0 then some db.numMember
    else some 1
  match maxMember? with
  | none => none
  | some maxMember =>
  let inh := if maxMember > db.numMember then { inh with member := false }
    else if opt.copyOnWrite then { inh with member := true } else inh
  -- member index
  let memberIndexSize :=
    if maxMember = 0 then 0
    else if opt.opt_memberIndexSize ≠ 0 then opt.opt_memberIndexSize
    else if inh.memberIndex then db.memberIndexSize
    else if ¬opt.readOnlyMode then o.autoSize maxMember
    else if db.memberIndexSize ≠ 0 then db.memberIndexSize
    else 1
  let (inh, reb) :=
    if maxMember = 0 then (inh, reb)
    else if memberIndexSize ≠ db.memberIndexSize then
      let reb := { reb with memberIndex := true }
      (inh.andNot reb, reb)
    else if opt.copyOnWrite then ({ inh with memberIndex := true }, reb)
    else (inh, reb)
  -- rebuilt sections cannot be inherited
  let inh := inh.andNot reb
  some ⟨⟨maxSignature, signatureIndexSize, maxHint, hintIndexSize,
         interleave, interleaveStep, maxImprint, imprintIndexSize,
         maxMember, memberIndexSize⟩, inh, reb⟩

/-- `dbtool_t::sizeDatabaseSections`: the sizing above followed by the
final "output data must be large enough to fit input data" fatal
checks — which cover the signature, hint and member sections only. -/
def sizeDatabaseSections (o : plannerOracles) (opt : dbtoolOptions)
    (db : dbSections) (inherit0 rebuild0 : sectionSet) : Option planResult :=
  match sizeDatabaseSectionsCore o opt db inherit0 rebuild0 with
  | none => none
  | some r =>
    if r.store.maxSignature < db.numSignature then none
    else if r.store.maxHint < db.numHint then none
    else if r.store.maxMember < db.numMember then none
    else some r

/-- All-clear section mask. -/
def sectionSetNone : sectionSet :=
  ⟨false, false, false, false, false, false, false, false⟩

/-- A planner run where every size is user-overridden: maxima 10 for
signatures, hints and members against 5 in the input, but maxImprint 1
against 1000 imprints in the input; all index sizes match the input;
interleave 504 matches the input. -/
def c3opts : dbtoolOptions := ⟨10, 7, 10, 7, 504, 1, 7, 10, 7, false, false⟩

/-- The input database of the C3 counterexample run. -/
def c3db : dbSections := ⟨5, 7, 5, 7, 504, 1000, 7, 5, 7⟩

/-- Concrete oracles for the C3 witness (never consulted on the c3
run, every size being user-specified). -/
def c3oracles : plannerOracles :=
  ⟨fun n => n, none, fun _ => none, fun n => n⟩

/-- The plan the c3 run produces (checked below by reduction). -/
def c3result : planResult :=
  ⟨⟨10, 7, 10, 7, 504, 720, 1, 7, 10, 7⟩, sectionSetNone, sectionSetNone⟩

/-- C3 counterexample: with every size user-overridden, the planner
returns without any fatal error although the output imprint section is
smaller than the input's imprint count (`maxImprint = 1 < 1000 =
db.numImprint`) — the final fatal checks cover signatures, hints and
members but not imprints, whatever the metric oracles say. -/
theorem claim_C3_counterexample :
    sizeDatabaseSections c3oracles c3opts c3db sectionSetNone sectionSetNone = some c3result ∧
    c3result.store.maxImprint < c3db.numImprint :=
  ⟨rfl, by decide⟩

/-- C3 (amended): on every planner run that returns without a fatal
error, the signature, hint and member sections of the output are large
enough for the input's data (`output.max >= input.num`); the imprint
section is not covered by these final checks. -/
theorem claim_C3_planner_final_checks (o : plannerOracles)
    (opt : dbtoolOptions) (db : dbSections) (i0 r0 : sectionSet)
    (r : planResult)
    (h : sizeDatabaseSections o opt db i0 r0 = some r) :
    db.numSignature ≤ r.store.maxSignature ∧
    db.numHint ≤ r.store.maxHint ∧
    db.numMember ≤ r.store.maxMember := by
  unfold sizeDatabaseSections at h
  rcases hc : sizeDatabaseSectionsCore o opt db i0 r0 with _ | r'
  · rw [hc] at h; exact absurd h (by simp)
  · rw [hc] at h
    dsimp only at h
    by_cases h1 : r'.store.maxSignature < db.numSignature
    · rw [if_pos h1] at h; exact absurd h (by simp)
    · rw [if_neg h1] at h
      by_cases h2 : r'.store.maxHint < db.numHint
      · rw [if_pos h2] at h; exact absurd h (by simp)
      · rw [if_neg h2] at h
        by_cases h3 : r'.store.maxMember < db.numMember
        · rw [if_pos h3] at h; exact absurd h (by simp)
        · rw [if_neg h3] at h
          cases h
          exact ⟨Nat.le_of_not_lt h1, Nat.le_of_not_lt h2, Nat.le_of_not_lt h3⟩

/-- Witness for C3's amended statement at the concrete c3 run. -/
theorem claim_C3_witness :
    sizeDatabaseSections c3oracles c3opts c3db sectionSetNone sectionSetNone = some c3result ∧
    (c3db.numSignature ≤ c3result.store.maxSignature ∧
     c3db.numHint ≤ c3result.store.maxHint ∧
     c3db.numMember ≤ c3result.store.maxMember) :=
  ⟨rfl, claim_C3_planner_final_checks c3oracles c3opts c3db
    sectionSetNone sectionSetNone c3result rfl⟩

/-! ## Member generator (`genmember.cc`)

`findHeadTail` and `foundTreeMember` of `genmemberContext_t`.  The
`tinyTree_t` helpers they call are the encoder/parsers embedded above
(`saveString` = `encode`, `loadStringSafe` = `decodeSafe`).  The
database engine (`database.h`) is not among the provided sources: its
hash indices are modelled as association lists ("Modelled from the
spec" below), the associative imprint lookup and the transform and
tree-comparison routines are oracle parameters.  `context_t::fatal`
and C `assert` failures are modelled as `Option.none`. -/

/-- Modelled from the spec: `member_t::MAXHEAD`, a member holds up to
6 head references. -/
def MAXHEAD : Nat := 6

/-- Modelled from the spec: signature flag `SAFE` (only set-ness is
ever tested). -/
def SIGMASK_SAFE : Nat := 2 ^ 0

/-- C `a &= ~b` on flag words (bits of `a` outside `b`). -/
def clearMask (a b : Nat) : Nat := a ^^^ (a &&& b)

/-- 32-bit unsigned subtraction (the capacity guards subtract
`unsigned` counters). -/
def sub32 (a b : Nat) : Nat := (a % 2 ^ 32 + 2 ^ 32 - b % 2 ^ 32) % 2 ^ 32

/-- The fields of `member_t` used by the generator. -/
structure memberRec where
  name : List Char
  sid : Nat
  tid : Nat
  size : Nat
  numPlaceholder : Nat
  numEndpoint : Nat
  numBackRef : Nat
  flags : Nat
  Qmt : Nat
  Tmt : Nat
  Fmt : Nat
  heads : List Nat
  nextMember : Nat
deriving DecidableEq, Repr

/-- The all-zero `member_t` (C `memset(0)`). -/
def zeroMember : memberRec :=
  ⟨[], 0, 0, 0, 0, 0, 0, 0, 0, 0, 0, List.replicate MAXHEAD 0, 0⟩

/-- The fields of `signature_t` used by the generator. -/
structure signatureRec where
  flags : Nat
  size : Nat
  firstMember : Nat
deriving DecidableEq, Repr

/-- The database sections `foundTreeMember` touches.  `members` is the
member array (entry 0 reserved, `numMember = members.length`); `pairs`
is the sid/tid-pair array (entry 0 reserved, each entry
`(sidmid, tid)`). -/
structure gmStore where
  members : List memberRec
  memberIndex : List (List Char × Nat)
  signatures : List signatureRec
  pairs : List (Nat × Nat)
  numSignature : Nat
  maxSignature : Nat
  numImprint : Nat
  maxImprint : Nat
  interleave : Nat
deriving DecidableEq, Repr

/-- Modelled from the spec: the member name index
(`lookupMember` + `memberIndex[ix]` — a hash index with overflow in
`database.h`), as an association list from name to member id, 0 when
absent. -/
def memberLookup (idx : List (List Char × Nat)) (name : List Char) : Nat :=
  match idx.find? (fun p => p.1 = name) with
  | some p => p.2
  | none => 0

/-- Modelled from the spec: the pair index (`lookupPair` +
`pairIndex[ix]` in `database.h`): the id of the pair `(mid, tid)` in
the pair array, 0 when absent. -/
def lookupPairId (pairs : List (Nat × Nat)) (mid tid : Nat) : Nat :=
  match pairs.findIdx? (fun p => p = (mid, tid)) with
  | some i => i
  | none => 0

/-- The generator context fields `foundTreeMember` reads and writes. -/
structure gmState where
  store : gmStore
  freeMemberRoot : Nat
  numEmpty : Nat
  numUnsafe : Nat
  skipDuplicate : Nat
  skipSize : Nat
  skipUnsafe : Nat
  truncated : Nat
  truncatedName : List Char
  progress : Nat
  opt_truncate : Nat
  readOnlyMode : Bool
  flagAINF : Bool
  flagPARANOID : Bool
  pSafeScores : List Nat
deriving DecidableEq, Repr

/-- Oracles for database/tree routines whose code is not among the
provided sources: the associative imprint lookup (`(sid, tid)`, sid 0
when not found), the add-if-not-found imprint insertion (its imprint-
section bookkeeping lives in `database.h` and is outside the modelled
state), the forward-transform index, and `tinyTree_t::compare`. -/
structure gmOracles where
  lookupImprintAssociative : tinyTreeT → Nat × Nat
  addImprintAssociative : tinyTreeT → Nat → Nat
  lookupFwdTransform : List Char → Nat
  treeCompare : tinyTreeT → Nat → tinyTreeT → Nat → Int

open tinyTree tinyTreeT in
/-- One tail stage of `findHeadTail` (the Q, T and F components run
the same code): fast skin-bearing save and lookup, then the slow
reparse path, then the safety test and pair interning.  `.inl ()`
means "component missing or unsafe" (the caller clears `SAFE` and
returns false); `.inr` carries the updated pair array and the interned
pair id. -/
def tailStage (o : gmOracles) (members : List memberRec)
    (idx : List (List Char × Nat)) (pairs : List (Nat × Nat))
    (treeR : tinyTreeT) (comp : Nat) :
    Option (Sum Unit (List (Nat × Nat) × Nat)) :=
  -- fast: treeR.saveString(comp, name, skin)
  match encode treeR comp true with
  | none => none
  | some none => none
  | some (some (name0, skin0)) =>
  let mid0 := memberLookup idx name0
  let slow : Option (List Char × Nat) :=
    if mid0 = 0 then
      -- slow: treeR.saveString(comp, name); tree2.loadStringSafe(name);
      -- tree2.saveString(tree2.root, name, skin)
      match encode treeR comp false with
      | none => none
      | some none => none
      | some (some (name1, _)) =>
        let dec := decodeSafe treeR.qntf name1 defaultSkin
        if dec.1 ≠ DERR_OK then none
        else
          match encode dec.2 dec.2.root true with
          | none => none
          | some none => none
          | some (some (name2, skin2)) => some (skin2, memberLookup idx name2)
    else some (skin0, mid0)
  match slow with
  | none => none
  | some (skin, mid) =>
  if mid = 0 ∨ (members.getD mid zeroMember).flags &&& MEMMASK_SAFE = 0 then
    some (.inl ())
  else
    let tid := o.lookupFwdTransform skin
    let pid := lookupPairId pairs mid tid
    if pid = 0 then some (.inr (pairs ++ [(mid, tid)], pairs.length))
    else some (.inr (pairs, pid))

open tinyTree tinyTreeT in
/-- The head-extraction of `findHeadTail` for one `hot` node `iHead`:
mark the nodes needed with the root's in view (ignoring `iHead`), then
rebuild the tree bottom-up with fresh placeholders for references that
fell out of view, re-applying dyadic ordering for OR/XOR/AND through the
comparison oracle. -/
def extractHead (o : gmOracles) (treeR : tinyTreeT) (iHead : Nat) : tinyTreeT :=
  let root := treeR.root
  let select0 : Nat := (1 <<< root) ||| (1 <<< 0)
  -- scan tree for needed nodes, ignoring the hot node (k descending)
  let ksDesc := (List.range (root + 1 - TINYTREE_NSTART)).map (fun i => root - i)
  let select1 := ksDesc.foldl (fun select k =>
    if k ≠ iHead ∧ select.testBit k then
      let node := treeR.N.getD (k - TINYTREE_NSTART) ⟨0, 0, 0⟩
      let Tu := node.T &&& (IBIT - 1)
      let s := if TINYTREE_NSTART ≤ node.Q then select ||| (1 <<< node.Q) else select
      let s := if TINYTREE_NSTART ≤ Tu then s ||| (1 <<< Tu) else s
      if TINYTREE_NSTART ≤ node.F then s ||| (1 <<< node.F) else s
    else select) select0
  -- remove the hot node from the selection
  let select2 := clearMask select1 (1 <<< iHead)
  -- extract (k ascending): state (select, what, nextPlaceholder, N)
  let ksAsc := (List.range (root + 1 - TINYTREE_NSTART)).map (TINYTREE_NSTART + ·)
  let st := ksAsc.foldl
    (fun (st : Nat × List Nat × Nat × List tinyNode) k =>
      let (select, what, nextPh, Ns) := st
      if k ≠ iHead ∧ select.testBit k then
        let node := treeR.N.getD (k - TINYTREE_NSTART) ⟨0, 0, 0⟩
        let Q := node.Q
        let Tu := node.T &&& (IBIT - 1)
        let Ti := node.T &&& IBIT
        let F := node.F
        -- assign placeholders to endpoints or the hot node
        let (select, what, nextPh) :=
          if ¬select.testBit Q then
            (select ||| (1 <<< Q), what.set Q nextPh, nextPh + 1)
          else (select, what, nextPh)
        let (select, what, nextPh) :=
          if ¬select.testBit Tu then
            (select ||| (1 <<< Tu), what.set Tu nextPh, nextPh + 1)
          else (select, what, nextPh)
        let (select, what, nextPh) :=
          if ¬select.testBit F then
            (select ||| (1 <<< F), what.set F nextPh, nextPh + 1)
          else (select, what, nextPh)
        let cnt := TINYTREE_NSTART + Ns.length
        let what := what.set k cnt
        let select := select ||| (1 <<< k)
        let tree : tinyTreeT := ⟨treeR.qntf, Ns, 0⟩
        -- perform dyadic ordering
        let newNode : tinyNode :=
          if Tu = 0 ∧ Ti ≠ 0 ∧ o.treeCompare tree (what.getD Q 0) tree (what.getD F 0) > 0 then
            ⟨what.getD F 0, IBIT, what.getD Q 0⟩              -- reorder OR
          else if Tu = F ∧ o.treeCompare tree (what.getD Q 0) tree (what.getD F 0) > 0 then
            ⟨what.getD F 0, what.getD Q 0 ^^^ IBIT, what.getD Q 0⟩  -- reorder XOR
          else if F = 0 ∧ Ti = 0 ∧ o.treeCompare tree (what.getD Q 0) tree (what.getD Tu 0) > 0 then
            ⟨what.getD Tu 0, what.getD Q 0, 0⟩                -- reorder AND
          else
            ⟨what.getD Q 0, what.getD Tu 0 ^^^ Ti, what.getD F 0⟩
        (select, what, nextPh, Ns ++ [newNode])
      else st)
    (select2, List.replicate TINYTREE_NEND 0, TINYTREE_KSTART, [])
  ⟨treeR.qntf, st.2.2.2, TINYTREE_NSTART + st.2.2.2.length - 1⟩

/-- The prefix of already-assigned heads (the C scan runs while
entries are non-zero). -/
def headsContains : List Nat → Nat → Bool
  | [], _ => false
  | h :: t, mid => if h = 0 then false else if h = mid then true else headsContains t mid

open tinyTree tinyTreeT in
/-- The head loop of `findHeadTail`: for each internal node below the
root, extract the head, look its name up (fast, then the slow reparse
path), fail unsafe heads, de-duplicate and record up to `MAXHEAD`
heads. -/
def findHeadTailHeads (o : gmOracles) (members : List memberRec)
    (idx : List (List Char × Nat)) (treeR : tinyTreeT) :
    List Nat → memberRec → Nat → Option (memberRec × Bool)
  | [], m, _ => some (m, true)
  | iHead :: rest, m, numHead =>
    let tree := extractHead o treeR iHead
    match encode tree tree.root true with
    | none => none
    | some none => none
    | some (some (name0, _)) =>
    let mid0 := memberLookup idx name0
    let slow : Option Nat :=
      if mid0 = 0 then
        let dec := decodeSafe treeR.qntf name0 defaultSkin
        if dec.1 ≠ DERR_OK then none
        else
          match encode dec.2 dec.2.root true with
          | none => none
          | some none => none
          | some (some (name1, _)) => some (memberLookup idx name1)
      else some mid0
    match slow with
    | none => none
    | some midHead =>
    if midHead = 0 then
      -- component not found
      some ({ m with flags := clearMask m.flags MEMMASK_SAFE }, false)
    else if (members.getD midHead zeroMember).flags &&& MEMMASK_SAFE = 0 then
      -- component unsafe
      some ({ m with flags := clearMask m.flags MEMMASK_SAFE }, false)
    else
      -- test if head already present
      let midHead := if headsContains m.heads midHead then 0 else midHead
      if midHead ≠ 0 then
        if numHead ≥ MAXHEAD then none  -- assert(numHead < MAXHEAD)
        else findHeadTailHeads o members idx treeR rest
          { m with heads := m.heads.set numHead midHead } (numHead + 1)
      else findHeadTailHeads o members idx treeR rest m numHead

open tinyTree tinyTreeT in
/-- `genmemberContext_t::findHeadTail`: flag the member safe, intern
the reserved roots, resolve the three tails (clearing `SAFE` and
returning false when one is missing or unsafe), then the heads.
`iMid` is the C pointer offset `pMember - pStore->members` (only read
by the reserved-root branches and the paranoid asserts). -/
def findHeadTail (o : gmOracles) (G : gmState) (pMember : memberRec)
    (treeR : tinyTreeT) (iMid : Nat) : Option (gmState × memberRec × Bool) :=
  if treeR.root &&& IBIT ≠ 0 then none  -- assert(!(treeR.root & IBIT))
  else
  -- safe until proven otherwise
  let m := { pMember with flags := pMember.flags ||| MEMMASK_SAFE }
  if treeR.root = 0 then
    if m.name ≠ [ '0' ] ∨ m.sid ≠ 1 then none  -- reserved name/entry asserts
    else
      let pmt := lookupPairId G.store.pairs iMid 0
      some (G, { m with tid := 0, Qmt := pmt, Tmt := pmt, Fmt := pmt }, true)
  else if treeR.root = TINYTREE_KSTART then
    if m.name ≠ [ 'a' ] ∨ m.sid ≠ 2 then none  -- reserved name/entry asserts
    else
      let pmt := lookupPairId G.store.pairs iMid 0
      some (G, { m with tid := 0, Qmt := pmt, Tmt := pmt, Fmt := pmt }, true)
  else if treeR.root < TINYTREE_NSTART then none  -- assert(root >= NSTART)
  else
  let rootNode := treeR.N.getD (treeR.root - TINYTREE_NSTART) ⟨0, 0, 0⟩
  -- tail Q
  match tailStage o G.store.members G.store.memberIndex G.store.pairs treeR rootNode.Q with
  | none => none
  | some (.inl _) =>
    some (G, { m with flags := clearMask m.flags MEMMASK_SAFE }, false)
  | some (.inr (pairs, qmt)) =>
  let m := { m with Qmt := qmt }
  -- tail T (inverter bit stripped)
  let Tu := rootNode.T &&& (IBIT - 1)
  match tailStage o G.store.members G.store.memberIndex pairs treeR Tu with
  | none => none
  | some (.inl _) =>
    some ({ G with store := { G.store with pairs := pairs } },
      { m with flags := clearMask m.flags MEMMASK_SAFE }, false)
  | some (.inr (pairs, tmt)) =>
  let m := { m with Tmt := tmt }
  -- tail F (de-dup against T)
  match
    if rootNode.F = Tu then some (.inr (pairs, 0))
    else tailStage o G.store.members G.store.memberIndex pairs treeR rootNode.F
  with
  | none => none
  | some (.inl _) =>
    some ({ G with store := { G.store with pairs := pairs } },
      { m with flags := clearMask m.flags MEMMASK_SAFE }, false)
  | some (.inr (pairs, fmt)) =>
  let m := { m with Fmt := fmt }
  let G := { G with store := { G.store with pairs := pairs } }
  -- erase heads, they may contain random values
  let m := { m with heads := List.replicate MAXHEAD 0 }
  let iHeads := (List.range (treeR.root - TINYTREE_NSTART)).map (TINYTREE_NSTART + ·)
  match findHeadTailHeads o G.store.members G.store.memberIndex treeR iHeads m 0 with
  | none => none
  | some (m, ok) =>
  if ¬ok then some (G, m, false)
  else if G.flagPARANOID then
    if (m.Qmt = 0 ∨ (G.store.pairs.getD m.Qmt (0, 0)).1 < iMid) ∧
       (m.Tmt = 0 ∨ (G.store.pairs.getD m.Tmt (0, 0)).1 < iMid) ∧
       (m.Fmt = 0 ∨ (G.store.pairs.getD m.Fmt (0, 0)).1 < iMid) ∧
       m.heads.all (fun h => h = 0 ∨ h < iMid) then
      some (G, m, true)
    else none
  else some (G, m, true)

/-- One pass of the flush loop's reference scan: zero every member's
`Qmt`/`Tmt`/`Fmt` whose pair resolves to the member being deleted
(`pairs[p->Xmt].sidmid == firstMember`); each hit asserts the
referencing member is not `SAFE` (`none` on violation). -/
def flushScanGo (pairs : List (Nat × Nat)) (fm : Nat) :
    List memberRec → Option (List memberRec)
  | [] => some []
  | p :: rest =>
    let chk : memberRec → Nat → Option Nat := fun p v =>
      if (pairs.getD v (0, 0)).1 = fm then
        if p.flags &&& MEMMASK_SAFE ≠ 0 then none else some 0
      else some v
    match chk p p.Qmt with
    | none => none
    | some q =>
    match chk p p.Tmt with
    | none => none
    | some t =>
    match chk p p.Fmt with
    | none => none
    | some f =>
    match flushScanGo pairs fm rest with
    | none => none
    | some rest' => some ({ p with Qmt := q, Tmt := t, Fmt := f } :: rest')

/-- The flush loop of `foundTreeMember` on `'>'`: while the group has
a first member, zero all references to it, then release it onto the
free list (`memberFree` zeroes the record and links it).  The entry 0
of the member array is skipped by the scan (the C loop starts at
`iMid = 1`).  Fuel-indexed; `none` is a failed assert or a chain
longer than the member array (the C would loop forever). -/
def flushGroup (pairs : List (Nat × Nat)) :
    Nat → List memberRec → Nat → Nat → Option (List memberRec × Nat)
  | 0, _, _, _ => none
  | _, members, 0, freeRoot => some (members, freeRoot)
  | fuel + 1, members, fm, freeRoot =>
    match members with
    | [] => some (members, freeRoot)
    | m0 :: rest =>
    match flushScanGo pairs fm rest with
    | none => none
    | some rest' =>
    let members := m0 :: rest'
    let p := members.getD fm zeroMember
    let members := members.set fm { zeroMember with nextMember := freeRoot }
    flushGroup pairs fuel members p.nextMember fm

open tinyTree tinyTreeT in
/-- `genmemberContext_t::foundTreeMember`: the generator callback.
Returns the new generator state and the continue/stop flag; `none` is
a failed C `assert`.  The verbose progress display is output-only and
not represented.  The boolean result of `findHeadTail` is ignored, as
in the source (`bool found = findHeadTail(...); if (!found) found =
false;`). -/
def foundTreeMember (o : gmOracles) (G : gmState) (treeR : tinyTreeT)
    (pNameR : List Char) (numPlaceholder numEndpoint numBackRef : Nat) :
    Option (gmState × Bool) :=
  if G.truncated ≠ 0 then some (G, false)  -- quit as fast as possible
  else
  -- test for duplicates
  let mixMid := memberLookup G.store.memberIndex pNameR
  if mixMid ≠ 0 then
    -- duplicate candidate name
    some ({ G with skipDuplicate := G.skipDuplicate + 1 }, true)
  else
  -- test for database overflow
  if G.opt_truncate ≠ 0 ∧
      (sub32 G.store.maxImprint G.store.numImprint ≤ G.store.interleave ∨
       sub32 G.store.maxSignature G.store.numSignature ≤ 1) then
    some ({ G with truncated := G.progress, truncatedName := pNameR }, false)
  else
  -- find the matching signature group
  let st :=
    if G.flagAINF ∧ ¬G.readOnlyMode then
      (o.addImprintAssociative treeR G.store.numSignature, 0)
    else o.lookupImprintAssociative treeR
  let sid := st.1
  let tid := st.2
  if sid = 0 then some (G, true)  -- not found
  else
  let pSignature := G.store.signatures.getD sid ⟨0, 0, 0⟩
  let sizeR := treeR.count - TINYTREE_NSTART
  -- early-reject
  let cmp0 : Nat :=
    if pSignature.flags &&& SIGMASK_SAFE ≠ 0 then
      if sizeR > G.pSafeScores.getD sid 0 then 42 else 0  -- '*'
    else
      if sizeR > pSignature.size + 1 then 42 else 0  -- '*'
  if cmp0 ≠ 0 then some ({ G with skipSize := G.skipSize + 1 }, true)
  else
  -- determine if safe when heads/tails are all safe
  let tmpMember : memberRec :=
    { zeroMember with
      name := pNameR, sid := sid, tid := tid, size := sizeR,
      numPlaceholder := numPlaceholder, numEndpoint := numEndpoint,
      numBackRef := numBackRef }
  match findHeadTail o G tmpMember treeR 0 with
  | none => none
  | some (G, tmpMember, _found) =>  -- result ignored
  -- verify if candidate member is acceptable
  let cmpAndG : Nat × gmState :=
    if pSignature.flags &&& SIGMASK_SAFE ≠ 0 then
      if tmpMember.flags &&& MEMMASK_SAFE = 0 then
        (60, { G with skipUnsafe := G.skipUnsafe + 1 })  -- '<'
      else (43, G)  -- '+'
    else
      if tmpMember.flags &&& MEMMASK_SAFE ≠ 0 then (62, G)  -- '>'
      else (61, G)  -- '='
  let cmp := cmpAndG.1
  let G := cmpAndG.2
  if cmp = 60 ∨ cmp = 45 then some (G, true)  -- '<' or '-': lost challenge
  else
  -- won challenge
  let flushed : Option (gmState × signatureRec) :=
    if (cmp = 62 ∨ cmp = 33) ∧ pSignature.firstMember ≠ 0 then  -- '>' or '!'
      if G.readOnlyMode then
        some ({ G with numEmpty := G.numEmpty + 1 }, { pSignature with firstMember := 0 })
      else
        match flushGroup G.store.pairs (G.store.members.length + 1)
            G.store.members pSignature.firstMember G.freeMemberRoot with
        | none => none
        | some (members, freeRoot) =>
          some ({ G with
              store := { G.store with members := members },
              freeMemberRoot := freeRoot,
              numEmpty := G.numEmpty + 1 },
            { pSignature with firstMember := 0 })
    else some (G, pSignature)
  match flushed with
  | none => none
  | some (G, pSignature) =>
  let (G, pSignature) :=
    if cmp = 62 then  -- '>': mark group as safe
      ({ G with numUnsafe := sub32 G.numUnsafe 1 },
       { pSignature with flags := pSignature.flags ||| SIGMASK_SAFE })
    else (G, pSignature)
  -- going to add member to group
  let G := if pSignature.firstMember = 0 then { G with numEmpty := sub32 G.numEmpty 1 } else G
  -- promote candidate to member
  let (G, pSignature) :=
    if G.readOnlyMode then
      (G, { pSignature with firstMember := 1 })  -- link a fake member
    else
      -- memberAlloc: pop the free list or append a new entry
      let allocated : gmState × Nat :=
        if G.freeMemberRoot ≠ 0 then
          let mid := G.freeMemberRoot
          ({ G with
              freeMemberRoot := (G.store.members.getD mid zeroMember).nextMember,
              store := { G.store with
                members := G.store.members.set mid
                  { zeroMember with name := pNameR } } }, mid)
        else
          ({ G with store := { G.store with
              members := G.store.members ++ [zeroMember] } },
            G.store.members.length)
      let G := allocated.1
      let mid := allocated.2
      -- populate (*pMember = tmpMember), link, index
      let G := { G with store := { G.store with
          members := G.store.members.set mid
            { tmpMember with nextMember := pSignature.firstMember },
          memberIndex := (pNameR, mid) :: G.store.memberIndex } }
      (G, { pSignature with firstMember := mid })
  let G := { G with store := { G.store with
      signatures := G.store.signatures.set sid pSignature } }
  -- update global score
  let G := { G with pSafeScores := G.pSafeScores.set sid sizeR }
  some (G, true)

/-- A trivial oracle set for runs that never consult the oracles. -/
def gmOraclesC1 : gmOracles :=
  ⟨fun _ => (5, 0), fun _ _ => 0, fun _ => 0, fun _ _ _ _ => 0⟩

/-- The candidate `"ab&cd&^"` as a parsed tree: nodes
`N[10] = (1,2,0)`, `N[11] = (3,4,0)`, `N[12] = (10, ~11, 11)`,
root 12 (what `decodeSafe` builds for that name). -/
def c1tree : tinyTreeT :=
  ⟨false, [⟨1, 2, 0⟩, ⟨3, 4, 0⟩, ⟨10, 11 ^^^ IBIT, 11⟩], 12⟩

/-- The candidate name `"ab&cd&^"`. -/
def c1name : List Char := [ 'a', 'b', '&', 'c', 'd', '&', '^' ]

/-- A generator state whose member index is empty (so the tail
`"ab&"` of the candidate resolves to no member), with signature group
5 unsafe (flags 0) of size 2, and truncation disabled. -/
def c1G : gmState :=
  ⟨⟨[zeroMember], [], List.replicate 5 ⟨0, 0, 0⟩ ++ [⟨0, 2, 0⟩], [(0, 0)],
    6, 100, 0, 100, 1⟩,
   0, 3, 2, 0, 0, 0, 0, [], 7, 0, false, false, false,
   List.replicate 6 0⟩

/-- The state after the c1 run: the candidate was admitted as member 1
(flags 0, i.e. not `SAFE`), the group chain and name index now hold
it, `numEmpty` dropped, `pSafeScores[5]` became 3. -/
def c1result : gmState :=
  ⟨⟨[zeroMember,
     { zeroMember with
       name := c1name, sid := 5, size := 3,
       numPlaceholder := 4, numEndpoint := 4 }],
    [(c1name, 1)], List.replicate 5 ⟨0, 0, 0⟩ ++ [⟨0, 2, 1⟩], [(0, 0)],
    6, 100, 0, 100, 1⟩,
   0, 2, 2, 0, 0, 0, 0, [], 7, 0, false, false, false,
   [0, 0, 0, 0, 0, 3]⟩

/-- C1 counterexample: the candidate `"ab&cd&^"` has its Q tail
`"ab&"` absent from the member index, so `findHeadTail` clears `SAFE`
and returns false — yet the candidate is NOT rejected outright: its
signature group (5) being unsafe, `foundTreeMember` admits it (member
record allocated, the group's chain gains it, the callback returns
true). -/
theorem claim_C1_counterexample :
    foundTreeMember gmOraclesC1 c1G c1tree c1name 4 4 0 = some (c1result, true) ∧
    c1result.store.members.length = c1G.store.members.length + 1 ∧
    (c1result.store.signatures.getD 5 ⟨0, 0, 0⟩).firstMember ≠ 0 ∧
    (c1result.store.members.getD 1 zeroMember).flags &&& MEMMASK_SAFE = 0 ∧
    (findHeadTail gmOraclesC1 c1G
      { zeroMember with
        name := c1name, sid := 5, size := 3,
        numPlaceholder := 4, numEndpoint := 4 } c1tree 0).map
      (fun r => r.2.2) = some false :=
  ⟨by decide, by decide, by decide, by decide, by decide⟩

/-- C9: a candidate whose name is already present in the member name
index only bumps `skipDuplicate` — the returned state differs from the
input state in that single counter (every database section, index,
flag and other counter is unchanged, as the record update shows) and
the callback returns true (continue). -/
theorem claim_C9_duplicate_counts_only (o : gmOracles) (G : gmState)
    (treeR : tinyTreeT) (pNameR : List Char) (np ne nb : Nat)
    (h0 : G.truncated = 0)
    (hdup : memberLookup G.store.memberIndex pNameR ≠ 0) :
    foundTreeMember o G treeR pNameR np ne nb =
      some ({ G with skipDuplicate := G.skipDuplicate + 1 }, true) := by
  unfold foundTreeMember
  rw [if_neg (by simp [h0])]
  dsimp only
  rw [if_pos hdup]

/-- A generator state holding the member `"ab&"` (so that name is a
duplicate), with truncation enabled and the imprint section full
(free capacity 0 <= interleave). -/
def c9G : gmState :=
  ⟨⟨[zeroMember, { zeroMember with name := [ 'a', 'b', '&' ], sid := 3, flags := MEMMASK_SAFE }],
    [([ 'a', 'b', '&' ], 1)], List.replicate 4 ⟨0, 0, 0⟩, [(0, 0)],
    4, 100, 20, 20, 504⟩,
   0, 1, 1, 5, 0, 0, 0, [], 9, 1, false, false, false,
   List.replicate 4 0⟩

/-- Witness for C9: the duplicate `"ab&"` bumps `skipDuplicate` from
5 to 6 and nothing else. -/
theorem claim_C9_witness :
    c9G.truncated = 0 ∧
    memberLookup c9G.store.memberIndex [ 'a', 'b', '&' ] ≠ 0 ∧
    foundTreeMember gmOraclesC1 c9G c1tree [ 'a', 'b', '&' ] 2 2 0 =
      some ({ c9G with skipDuplicate := c9G.skipDuplicate + 1 }, true) :=
  ⟨by decide, by decide,
   claim_C9_duplicate_counts_only gmOraclesC1 c9G c1tree [ 'a', 'b', '&' ] 2 2 0
     (by decide) (by decide)⟩

/-- C5 (amended): (1) once `truncated` is non-zero, every call returns
false immediately with the state untouched; (2) when truncation is
enabled, the candidate is NOT already in the member name index, and
imprint free capacity <= interleave or signature free capacity <= 1
(32-bit unsigned subtraction), the call records the progress in
`truncated`, copies the candidate name, returns false, and changes
nothing else.  Unlike the literal claim, a duplicate candidate is
counted and accepted (true) before the capacity guard is consulted. -/
theorem claim_C5_truncation_guard (o : gmOracles) (G : gmState)
    (treeR : tinyTreeT) (pNameR : List Char) (np ne nb : Nat) :
    (G.truncated ≠ 0 →
      foundTreeMember o G treeR pNameR np ne nb = some (G, false)) ∧
    (G.truncated = 0 →
      memberLookup G.store.memberIndex pNameR = 0 →
      G.opt_truncate ≠ 0 →
      (sub32 G.store.maxImprint G.store.numImprint ≤ G.store.interleave ∨
       sub32 G.store.maxSignature G.store.numSignature ≤ 1) →
      foundTreeMember o G treeR pNameR np ne nb =
        some ({ G with truncated := G.progress, truncatedName := pNameR }, false)) := by
  constructor
  · intro h
    unfold foundTreeMember
    rw [if_pos h]
  · intro h0 hnodup htr hcap
    unfold foundTreeMember
    rw [if_neg (by simp [h0])]
    dsimp only
    rw [if_neg (by simp [hnodup])]
    rw [if_pos ⟨htr, hcap⟩]

/-- C5 counterexample: in state `c9G` (truncation enabled, imprint
capacity exhausted) the duplicate candidate `"ab&"` nevertheless
returns true with only `skipDuplicate` bumped: `truncated` stays 0 and
no graceful stop is requested, against the literal claim. -/
theorem claim_C5_counterexample :
    c9G.opt_truncate ≠ 0 ∧
    sub32 c9G.store.maxImprint c9G.store.numImprint ≤ c9G.store.interleave ∧
    c9G.truncated = 0 ∧
    foundTreeMember gmOraclesC1 c9G c1tree [ 'a', 'b', '&' ] 2 2 0 =
      some ({ c9G with skipDuplicate := 6 }, true) :=
  ⟨by decide, by decide, by decide, by decide⟩

/-- A generator state like `c9G` but without the duplicate entry, so
the capacity guard is reached. -/
def c5G : gmState :=
  ⟨⟨[zeroMember], [], List.replicate 4 ⟨0, 0, 0⟩, [(0, 0)],
    4, 100, 20, 20, 504⟩,
   0, 1, 1, 5, 0, 0, 0, [], 9, 1, false, false, false,
   List.replicate 4 0⟩

/-- Witness for C5: with `c5G` (no duplicate) the guard fires — the
call stores `progress = 9` and the name, and returns false; and a
second call on the truncated state returns false with no change. -/
theorem claim_C5_witness :
    c5G.truncated = 0 ∧ c5G.opt_truncate ≠ 0 ∧
    sub32 c5G.store.maxImprint c5G.store.numImprint ≤ c5G.store.interleave ∧
    foundTreeMember gmOraclesC1 c5G c1tree [ 'a', 'b', '&' ] 2 2 0 =
      some ({ c5G with truncated := 9, truncatedName := [ 'a', 'b', '&' ] }, false) ∧
    foundTreeMember gmOraclesC1
      { c5G with truncated := 9, truncatedName := [ 'a', 'b', '&' ] }
      c1tree [ 'c', 'd', '&' ] 2 2 0 =
      some ({ c5G with truncated := 9, truncatedName := [ 'a', 'b', '&' ] }, false) :=
  ⟨by decide, by decide, by decide,
   (claim_C5_truncation_guard gmOraclesC1 c5G c1tree [ 'a', 'b', '&' ] 2 2 0).2
     (by decide) (by decide) (by decide) (by decide),
   (claim_C5_truncation_guard gmOraclesC1
     { c5G with truncated := 9, truncatedName := [ 'a', 'b', '&' ] }
     c1tree [ 'c', 'd', '&' ] 2 2 0).1 (by decide)⟩

open tinyTree tinyTreeT in
/-- C1 (amended): a missing or unsafe tail clears the candidate's
`SAFE` flag and makes `findHeadTail` return false — but so does a
missing or unsafe head, and `foundTreeMember` ignores that result
either way.  Rejection of an unsafe candidate happens only when the
signature group is safe; this theorem shows the complementary path:
whenever the candidate comes out of `findHeadTail` without `SAFE`
(whatever the boolean result `b`) and its group is unsafe, the
candidate is admitted — the member array grows by one, the name index
and the group's chain receive the new member. -/
theorem claim_C1_tail_failure_admission (o : gmOracles) (G G1 : gmState)
    (treeR : tinyTreeT) (pNameR : List Char) (np ne nb : Nat)
    (m1 : memberRec) (b : Bool)
    (h0 : G.truncated = 0)
    (hnodup : memberLookup G.store.memberIndex pNameR = 0)
    (htr : G.opt_truncate = 0)
    (hainf : G.flagAINF = false)
    (hsid : (o.lookupImprintAssociative treeR).1 ≠ 0)
    (hUnsafe : (G.store.signatures.getD (o.lookupImprintAssociative treeR).1
      ⟨0, 0, 0⟩).flags &&& SIGMASK_SAFE = 0)
    (hsize : ¬(treeR.count - TINYTREE_NSTART >
      (G.store.signatures.getD (o.lookupImprintAssociative treeR).1
        ⟨0, 0, 0⟩).size + 1))
    (hfht : findHeadTail o G
      { zeroMember with
        name := pNameR, sid := (o.lookupImprintAssociative treeR).1,
        tid := (o.lookupImprintAssociative treeR).2,
        size := treeR.count - TINYTREE_NSTART,
        numPlaceholder := np, numEndpoint := ne, numBackRef := nb }
      treeR 0 = some (G1, m1, b))
    (hm1 : m1.flags &&& MEMMASK_SAFE = 0)
    (hro1 : G1.readOnlyMode = false)
    (hfree : G1.freeMemberRoot = 0) :
    ∃ G2, foundTreeMember o G treeR pNameR np ne nb = some (G2, true) ∧
      G2.store.members.length = G1.store.members.length + 1 ∧
      G2.store.memberIndex = (pNameR, G1.store.members.length) :: G1.store.memberIndex ∧
      G2.store.members.getD G1.store.members.length zeroMember =
        { m1 with nextMember :=
            (G.store.signatures.getD (o.lookupImprintAssociative treeR).1
              ⟨0, 0, 0⟩).firstMember } := by
  simp only [foundTreeMember, h0, hnodup, htr, hainf, hsid, hUnsafe, hfht, hm1,
    hro1, hfree]
  simp only [ne_eq, not_true_eq_false, not_false_eq_true, if_false, if_true,
    Bool.false_eq_true, false_and, if_neg, ite_false, ite_true,
    hsid, hUnsafe, hfht, hm1]
  simp only [hsize, hro1, hfree, if_false, if_true, ite_false, ite_true,
    Bool.false_eq_true, not_true_eq_false, not_false_eq_true, ne_eq]
  norm_num
  by_cases hfm : (G.store.signatures[(o.lookupImprintAssociative treeR).1]?.getD
      (⟨0, 0, 0⟩ : signatureRec)).firstMember = 0 <;>
    simp only [hfm, if_true, if_false, ite_true, ite_false, hro1, hfree,
      Bool.false_eq_true, not_true_eq_false, not_false_eq_true, ne_eq] <;>
    exact ⟨by simp, trivial, by simp [List.getElem?_set, List.length_append]⟩


/-- The candidate member record of the c1 run as it leaves
`findHeadTail` (its `SAFE` flag cleared by the missing Q tail). -/
def c1m : memberRec :=
  { zeroMember with
    name := c1name, sid := 5, size := 3,
    numPlaceholder := 4, numEndpoint := 4 }

/-- Witness for C1's amended statement at the concrete c1 run. -/
theorem claim_C1_witness :
    ∃ G2, foundTreeMember gmOraclesC1 c1G c1tree c1name 4 4 0 = some (G2, true) ∧
      G2.store.members.length = c1G.store.members.length + 1 ∧
      G2.store.memberIndex = (c1name, c1G.store.members.length) :: c1G.store.memberIndex ∧
      G2.store.members.getD c1G.store.members.length zeroMember =
        { c1m with nextMember :=
            (c1G.store.signatures.getD
              (gmOraclesC1.lookupImprintAssociative c1tree).1
              ⟨0, 0, 0⟩).firstMember } :=
  claim_C1_tail_failure_admission gmOraclesC1 c1G c1G c1tree c1name 4 4 0 c1m false
    (by decide) (by decide) (by decide) (by decide) (by decide) (by decide)
    (by decide) (by decide) (by decide) (by decide) (by decide)
